import Mathlib

/-!
# Inventory service (app.go)

A shallow embedding of the HTTP layer of the inventory service: the response
writer (`sendResponse`, `errorResponse`), the five handlers of `App`, and the
routing table installed by `handleRoutes`.

* A handler is a function from a request and the current `World` (the database
  contents together with the log of storage accessor calls made so far) to the
  response written and the `World` afterwards.
* The Go standard library functions the handlers call (`strconv.Atoi`,
  `json.Marshal`, `json.Decoder.Decode`) and the gorilla/mux router are embedded
  as executable functions following their documented behaviour.
* The storage accessor (the model layer) is not part of app.go; it is a
  parameter, shaped as the specification describes it.
-/

namespace Inventory

/-! ## Data model -/

/-- Go float64: an IEEE-754 binary64 value, carried as its 64-bit pattern
(sign bit 63, biased exponent bits 62..52, fraction bits 51..0). -/
structure float64 where
  bits : Nat
deriving DecidableEq, Repr

/-- A float64 is finite when its exponent field is not all ones (neither NaN nor
an infinity). -/
def float64.isFinite (x : float64) : Bool :=
  (x.bits / 2 ^ 52) % 2048 != 2047

/-- Modelled from the spec: the product entity, whose type declaration lives in
the model layer (absent from src/): identifier, name, quantity and price, with
the JSON keys id, name, quantity and price of section 6. `product{ID: id}` in
app.go fixes the identifier to a Go int. -/
structure product where
  ID : Int
  Name : String
  Quantity : Int
  Price : float64
deriving DecidableEq, Repr

/-- A Go slice of products: the nil slice, or a (possibly empty) non-nil one. -/
inductive Slice (α : Type) where
  | nil
  | mk (xs : List α)
deriving DecidableEq, Repr

/-- Go error values as the handlers observe them: the sentinel `sql.ErrNoRows`,
which `getProductByID` compares by identity, or any other error with its
message. -/
inductive error where
  | ErrNoRows
  | other (msg : String)
deriving DecidableEq, Repr

/-- The method `Error()` of an error value. -/
def error.Error : error → String
  | .ErrNoRows => "sql: no rows in result set"
  | .other msg => msg

/-! ## net/http status codes -/

def StatusOK : Nat := 200
def StatusCreated : Nat := 201
def StatusMovedPermanently : Nat := 301
def StatusBadRequest : Nat := 400
def StatusNotFound : Nat := 404
def StatusMethodNotAllowed : Nat := 405
def StatusInternalServerError : Nat := 500

/-! ## encoding/json: Marshal -/

/-- A JSON document as written by `json.Marshal` (compact form, keys in the
order listed). -/
inductive Json where
  | null
  | bool (b : Bool)
  | int (n : Int)
  | float (x : float64)
  | str (s : String)
  | arr (xs : List Json)
  | obj (kvs : List (String × Json))

/-- The values app.go passes to `sendResponse` as `payload interface{}`: a
one-entry `map[string]string`, a product, or a slice of products. -/
inductive Payload where
  | mapEntry (key value : String)
  | product (p : product)
  | products (ps : Slice product)

/-- The JSON object that encodes a product: its four fields under the keys id,
name, quantity and price. -/
def productObject (p : product) : Json :=
  .obj [("id", .int p.ID), ("name", .str p.Name),
        ("quantity", .int p.Quantity), ("price", .float p.Price)]

/-- The encoding of one product by `json.Marshal`; a price that is NaN or an
infinity makes Marshal fail (UnsupportedValueError). -/
def productJson (p : product) : Option Json :=
  if p.Price.isFinite then some (productObject p) else none

/-- The encodings of the elements of a slice, in order; fails when one fails. -/
def marshalAll : List product → Option (List Json)
  | [] => some []
  | p :: ps =>
    match productJson p, marshalAll ps with
    | some j, some js => some (j :: js)
    | _, _ => none

/-- The function `json.Marshal` on the payloads of app.go. A nil slice encodes
as the JSON value null, a non-nil slice as an array. `none` stands for a
returned error (and no bytes). -/
def Marshal : Payload → Option Json
  | .mapEntry key value => some (.obj [(key, .str value)])
  | .product p => productJson p
  | .products .nil => some .null
  | .products (.mk ps) =>
    match marshalAll ps with
    | some js => some (.arr js)
    | none => none

/-! ## Response writer -/

/-- What a handler leaves in the `http.ResponseWriter`: status line, headers and
body. `body = none` is an empty body (Marshal failed and its error was
dropped). -/
structure Response where
  statusCode : Nat
  header : List (String × String)
  body : Option Json

/-- Function `sendResponse` (app.go 45-50). -/
def sendResponse (statusCode : Nat) (payload : Payload) : Response :=
  let response := Marshal payload
  { statusCode := statusCode
    header := [("Content-Type", "application/json")]
    body := response }

/-- Function `errorResponse` (app.go 53-56). -/
def errorResponse (statusCode : Nat) (err : String) : Response :=
  let error_message := Payload.mapEntry "error" err
  sendResponse statusCode error_message

/-- The body built by `errorResponse`: the object with the single key "error"
mapped to a string. -/
def isErrorBody : Option Json → Prop
  | some (.obj [(key, .str _)]) => key = "error"
  | _ => False

/-! ## strconv.Atoi -/

/-- Value of a non-empty string of decimal digits, most significant first. -/
def decimal : List Char → Option Nat
  | [] => none
  | cs => if cs.all Char.isDigit then some (cs.foldl (fun n c => 10 * n + (c.toNat - 48)) 0)
          else none

/-- The function `strconv.Atoi` on a 64-bit platform: an optional sign followed
by one or more decimal digits, with a value in the range of int; `none` stands
for a returned error (syntax or range). -/
def Atoi (s : String) : Option Int :=
  match s.toList with
  | '-' :: ds =>
    match decimal ds with
    | some n => if n ≤ 2 ^ 63 then some (-(n : Int)) else none
    | none => none
  | '+' :: ds =>
    match decimal ds with
    | some n => if n < 2 ^ 63 then some (n : Int) else none
    | none => none
  | ds =>
    match decimal ds with
    | some n => if n < 2 ^ 63 then some (n : Int) else none
    | none => none

/-! ## encoding/json: Decoder.Decode into a product -/

/-- A number literal of the JSON grammar, split into its parts: sign, integer
digits, fraction digits (empty when there is no fraction) and exponent (sign
and digits, empty when there is no exponent). -/
structure NumLit where
  neg : Bool
  int : List Char
  frac : List Char
  expNeg : Bool
  exp : List Char
deriving DecidableEq, Repr

/-- A JSON value as the decoder reads it. Strings are already unquoted; numbers
keep their literal, converted only once the target field is known. -/
inductive Value where
  | null
  | bool (b : Bool)
  | number (lit : NumLit)
  | string (s : List Char)
  | array (xs : List Value)
  | object (kvs : List (List Char × Value))

/-- The scanner's `isSpace`: space, tab, carriage return, line feed. -/
def isSpace (c : Char) : Bool :=
  c == ' ' || c == '\t' || c == '\r' || c == '\n'

/-- Drops leading JSON white space. -/
def skipSpace : List Char → List Char
  | [] => []
  | c :: cs => if isSpace c then skipSpace cs else c :: cs

/-- The longest run of decimal digits at the front, and what follows it. -/
def digits : List Char → List Char × List Char
  | [] => ([], [])
  | c :: cs =>
    if c.isDigit then
      match digits cs with
      | (ds, r) => (c :: ds, r)
    else ([], c :: cs)

/-- Integer part of a number: a single 0, or a non-zero digit and more digits. -/
def scanInt : List Char → Option (List Char × List Char)
  | [] => none
  | c :: r =>
    if c == '0' then some (['0'], r)
    else if c.isDigit then
      match digits r with
      | (ds, r1) => some (c :: ds, r1)
    else none

/-- Optional fraction: a dot and at least one digit. -/
def scanFrac : List Char → Option (List Char × List Char)
  | '.' :: r =>
    match digits r with
    | ([], _) => none
    | (ds, r1) => some (ds, r1)
  | cs => some ([], cs)

/-- Optional exponent: e or E, an optional sign, at least one digit. -/
def scanExp : List Char → Option (Bool × List Char × List Char)
  | [] => some (false, [], [])
  | c :: r =>
    if c == 'e' || c == 'E' then
      match r with
      | '+' :: r1 =>
        match digits r1 with
        | ([], _) => none
        | (ds, r2) => some (false, ds, r2)
      | '-' :: r1 =>
        match digits r1 with
        | ([], _) => none
        | (ds, r2) => some (true, ds, r2)
      | _ =>
        match digits r with
        | ([], _) => none
        | (ds, r2) => some (false, ds, r2)
    else some (false, [], c :: r)

/-- After an optional minus sign: integer part, fraction, exponent. -/
def scanUnsigned (neg : Bool) (cs : List Char) : Option (NumLit × List Char) :=
  match scanInt cs with
  | none => none
  | some (i, r1) =>
    match scanFrac r1 with
    | none => none
    | some (f, r2) =>
      match scanExp r2 with
      | none => none
      | some (en, e, r3) => some (⟨neg, i, f, en, e⟩, r3)

/-- A number literal at the front of the input. -/
def scanNumber : List Char → Option (NumLit × List Char)
  | '-' :: r => scanUnsigned true r
  | cs => scanUnsigned false cs

/-- Value of a hexadecimal digit. -/
def hexVal (c : Char) : Option Nat :=
  if c.isDigit then some (c.toNat - 48)
  else if 'a' ≤ c ∧ c ≤ 'f' then some (c.toNat - 87)
  else if 'A' ≤ c ∧ c ≤ 'F' then some (c.toNat - 55)
  else none

/-- The four hexadecimal digits of a \u escape as a UTF-16 code unit. -/
def hex4 (a b c d : Char) : Option Nat :=
  match hexVal a, hexVal b, hexVal c, hexVal d with
  | some x, some y, some z, some w => some (((x * 16 + y) * 16 + z) * 16 + w)
  | _, _, _, _ => none

/-- One element of a string literal: a character (written plainly or by a
one-letter escape), or the code unit of a \u escape. -/
inductive StrTok where
  | ch (c : Char)
  | u (n : Nat)
deriving DecidableEq, Repr

/-- The character written by a one-letter escape, if the letter is one of the
JSON grammar. -/
def escapeChar (e : Char) : Option Char :=
  if e == '"' then some '"'
  else if e == '\\' then some '\\'
  else if e == '/' then some '/'
  else if e == 'b' then some (Char.ofNat 8)
  else if e == 'f' then some (Char.ofNat 12)
  else if e == 'n' then some '\n'
  else if e == 'r' then some '\r'
  else if e == 't' then some '\t'
  else none

/-- Scans a string literal after its opening quote up to the closing quote,
as the scanner validates it: no control character, only the escapes of the
JSON grammar. -/
def scanString : List Char → Option (List StrTok × List Char)
  | [] => none
  | '"' :: r => some ([], r)
  | '\\' :: 'u' :: a :: b :: c :: d :: r =>
    match hex4 a b c d, scanString r with
    | some n, some (ts, r1) => some (.u n :: ts, r1)
    | _, _ => none
  | '\\' :: e :: r =>
    match escapeChar e, scanString r with
    | some c, some (ts, r1) => some (.ch c :: ts, r1)
    | _, _ => none
  | '\\' :: [] => none
  | c :: r =>
    if c.toNat < 32 then none
    else
      match scanString r with
      | some (ts, r1) => some (.ch c :: ts, r1)
      | none => none

/-- The function `unquote`: \u escapes become characters; a surrogate pair is
combined, a surrogate without its partner becomes U+FFFD. -/
def unquote : List StrTok → List Char
  | [] => []
  | .ch c :: r => c :: unquote r
  | .u hi :: .u lo :: r =>
    if 0xD800 ≤ hi ∧ hi < 0xDC00 ∧ 0xDC00 ≤ lo ∧ lo < 0xE000 then
      Char.ofNat (((hi - 0xD800) * 1024 + (lo - 0xDC00)) + 0x10000) :: unquote r
    else if 0xD800 ≤ hi ∧ hi < 0xE000 then Char.ofNat 0xFFFD :: unquote (.u lo :: r)
    else Char.ofNat hi :: unquote (.u lo :: r)
  | .u n :: r =>
    if 0xD800 ≤ n ∧ n < 0xE000 then Char.ofNat 0xFFFD :: unquote r
    else Char.ofNat n :: unquote r

/-- The scanner's `maxNestingDepth`. -/
def maxNestingDepth : Nat := 10000

/-- Strips the given word from the front of the input, if it is there. -/
def literal : List Char → List Char → Option (List Char)
  | [], cs => some cs
  | _ :: _, [] => none
  | w :: ws, c :: cs => if w = c then literal ws cs else none

mutual
/-- Reads one JSON value at the front of the input, after optional white space,
and returns it with the unread rest. `depth` is the number of arrays and objects
currently open; `fuel` bounds the recursion (the input length suffices). -/
def parseValue : Nat → Nat → List Char → Option (Value × List Char)
  | 0, _, _ => none
  | fuel + 1, depth, cs =>
    match skipSpace cs with
    | [] => none
    | c :: r =>
      if c = '\x7b' then
        if depth + 1 > maxNestingDepth then none
        else
          match skipSpace r with
          | '\x7d' :: r1 => some (.object [], r1)
          | r1 =>
            match parseMembers fuel (depth + 1) r1 with
            | some (kvs, r2) => some (.object kvs, r2)
            | none => none
      else if c = '[' then
        if depth + 1 > maxNestingDepth then none
        else
          match skipSpace r with
          | ']' :: r1 => some (.array [], r1)
          | r1 =>
            match parseElements fuel (depth + 1) r1 with
            | some (xs, r2) => some (.array xs, r2)
            | none => none
      else if c = '"' then
        match scanString r with
        | some (ts, r1) => some (.string (unquote ts), r1)
        | none => none
      else if c = 't' then
        match literal ['r', 'u', 'e'] r with
        | some r1 => some (.bool true, r1)
        | none => none
      else if c = 'f' then
        match literal ['a', 'l', 's', 'e'] r with
        | some r1 => some (.bool false, r1)
        | none => none
      else if c = 'n' then
        match literal ['u', 'l', 'l'] r with
        | some r1 => some (.null, r1)
        | none => none
      else
        match scanNumber (c :: r) with
        | some (lit, r1) => some (.number lit, r1)
        | none => none
/-- The members of an object after its opening brace (at least one), up to and
including the closing brace. -/
def parseMembers : Nat → Nat → List Char → Option (List (List Char × Value) × List Char)
  | 0, _, _ => none
  | fuel + 1, depth, cs =>
    match skipSpace cs with
    | '"' :: r =>
      match scanString r with
      | none => none
      | some (ts, r1) =>
        match skipSpace r1 with
        | ':' :: r2 =>
          match parseValue fuel depth r2 with
          | none => none
          | some (v, r3) =>
            match skipSpace r3 with
            | ',' :: r4 =>
              match parseMembers fuel depth r4 with
              | some (kvs, r5) => some ((unquote ts, v) :: kvs, r5)
              | none => none
            | '\x7d' :: r4 => some ([(unquote ts, v)], r4)
            | _ => none
        | _ => none
    | _ => none
/-- The elements of an array after its opening bracket (at least one), up to
and including the closing bracket. -/
def parseElements : Nat → Nat → List Char → Option (List Value × List Char)
  | 0, _, _ => none
  | fuel + 1, depth, cs =>
    match parseValue fuel depth cs with
    | none => none
    | some (v, r1) =>
      match skipSpace r1 with
      | ',' :: r2 =>
        match parseElements fuel depth r2 with
        | some (vs, r3) => some (v :: vs, r3)
        | none => none
      | ']' :: r2 => some ([v], r2)
      | _ => none
end

/-- The function `strconv.ParseInt(lit, 10, 64)` on a number literal: no
fraction, no exponent, value in the range of int64. -/
def NumLit.toInt (l : NumLit) : Option Int :=
  if l.frac.isEmpty && l.exp.isEmpty then
    match decimal l.int with
    | some n =>
      if l.neg then (if n ≤ 2 ^ 63 then some (-(n : Int)) else none)
      else (if n < 2 ^ 63 then some (n : Int) else none)
    | none => none
  else none

/-- Value of a run of decimal digits (0 for the empty run). -/
def digitsVal (cs : List Char) : Nat :=
  cs.foldl (fun n c => 10 * n + (c.toNat - 48)) 0

/-- Floor of the binary logarithm of a positive number (0 for 0), by repeated
halving; `fuel` bounds the number of halvings. -/
def ilog2 : Nat → Nat → Nat
  | 0, _ => 0
  | fuel + 1, n => if n < 2 then 0 else ilog2 fuel (n / 2) + 1

/-- The positive rational num / den rounded to the nearest binary64 (ties to
even), as the bit pattern without sign; `none` when the result is not finite. -/
def roundFloat (num den : Nat) : Option Nat :=
  let l0 : Int := (ilog2 num num : Int) - (ilog2 den den : Int)
  let ge : Bool := if 0 ≤ l0 then den * 2 ^ l0.toNat ≤ num else den ≤ num * 2 ^ (-l0).toNat
  let l : Int := if ge then l0 else l0 - 1
  let e2 : Int := max (l - 52) (-1074)
  let sn : Nat := if 0 ≤ e2 then num else num * 2 ^ (-e2).toNat
  let sd : Nat := if 0 ≤ e2 then den * 2 ^ e2.toNat else den
  let fl := sn / sd
  let rem := sn % sd
  let m := if sd < 2 * rem ∨ (2 * rem = sd ∧ fl % 2 = 1) then fl + 1 else fl
  let bits := (e2 + 1074).toNat * 2 ^ 52 + m
  if bits < 2047 * 2 ^ 52 then some bits else none

/-- The function `strconv.ParseFloat(lit, 64)` on a number literal: the nearest
float64; `none` stands for the range error returned when the value rounds to an
infinity. -/
def NumLit.toFloat (l : NumLit) : Option float64 :=
  let mant := digitsVal (l.int ++ l.frac)
  let sign := if l.neg then 2 ^ 63 else 0
  if mant = 0 then some ⟨sign⟩
  else
    let e10 : Int := (if l.expNeg then -(digitsVal l.exp : Int) else (digitsVal l.exp : Int))
                      - (l.frac.length : Int)
    let r := if 0 ≤ e10 then roundFloat (mant * 10 ^ e10.toNat) 1
             else roundFloat mant (10 ^ (-e10).toNat)
    match r with
    | some bits => some ⟨bits + sign⟩
    | none => none

/-- The zero value of `product` (`var p product`). -/
def product.zero : product := { ID := 0, Name := "", Quantity := 0, Price := ⟨0⟩ }

/-- Stores one object member into the product. The key selects the field by its
JSON name, ignoring ASCII case; an unknown key is skipped. A null leaves the
field as it is; a value of the wrong kind, or a number the field cannot hold,
is the decoder's UnmarshalTypeError (`none`). -/
def setField (p : product) (key : List Char) (v : Value) : Option product :=
  let k := key.map Char.toLower
  if k = "id".toList then
    match v with
    | .null => some p
    | .number lit =>
      match lit.toInt with
      | some n => some { p with ID := n }
      | none => none
    | _ => none
  else if k = "name".toList then
    match v with
    | .null => some p
    | .string s => some { p with Name := String.mk s }
    | _ => none
  else if k = "quantity".toList then
    match v with
    | .null => some p
    | .number lit =>
      match lit.toInt with
      | some n => some { p with Quantity := n }
      | none => none
    | _ => none
  else if k = "price".toList then
    match v with
    | .null => some p
    | .number lit =>
      match lit.toFloat with
      | some x => some { p with Price := x }
      | none => none
    | _ => none
  else some p

/-- Stores the members of an object in order (a repeated key overwrites). -/
def setFields (p : product) : List (List Char × Value) → Option product
  | [] => some p
  | (key, v) :: kvs =>
    match setField p key v with
    | some p1 => setFields p1 kvs
    | none => none

/-- Decoding a value into a product starting from `p`: null is a no-op, an
object sets fields, anything else is an UnmarshalTypeError. -/
def unmarshal (p : product) : Value → Option product
  | .null => some p
  | .object kvs => setFields p kvs
  | _ => none

/-- The call `json.NewDecoder(r.Body).Decode(&p)` on a fresh `var p product`:
reads the first JSON value of the body and decodes it; the bytes after that
value are not examined. `none` stands for a returned error. -/
def Decode (body : String) : Option product :=
  match parseValue (body.length + 1) 0 body.toList with
  | some (v, _) => unmarshal product.zero v
  | none => none

/-- A well-formed JSON document in the sense of the specification (and of
`json.Valid`): one JSON value, with nothing but white space around it. -/
def wellFormedDocument (body : String) : Bool :=
  match parseValue (body.length + 1) 0 body.toList with
  | some (_, rest) => (skipSpace rest).isEmpty
  | none => false

/-! ## Storage accessor (model layer) -/

/-- Modelled from the spec: the storage accessor of section 4.1, which is the
model layer of the repository and absent from src/. It is a parameter: any five
operations on a database state `DB` with the shapes the specification gives.
`listAll` yields a sequence of products, `getByID` a single product (NotFound
is `error.ErrNoRows`), `insert` assigns and yields the new identifier, `update`
and `deleteByID` yield nothing. Each may fail with an error, and each returns
the database state it leaves. -/
structure Storage (DB : Type) where
  listAll : DB → Except error (Slice product) × DB
  getByID : Int → DB → Except error product × DB
  insert : product → DB → Except error Int × DB
  update : Int → product → DB → Option error × DB
  deleteByID : Int → DB → Option error × DB

/-- One call of a storage accessor function, with its receiver. -/
inductive StorageCall where
  | getProducts
  | getProductByID (p : product)
  | addProduct (p : product)
  | updateProduct (p : product)
  | deleteProductByID (p : product)
deriving DecidableEq, Repr

/-- The state a handler runs in: the database behind `app.DB`, and the storage
accessor calls made so far, oldest first. -/
structure World (DB : Type) where
  db : DB
  calls : List StorageCall

/-- Modelled from the spec: accessor `getProducts(db)`, returning the slice and
the error (`listAll`). -/
def getProducts {DB : Type} (S : Storage DB) (w : World DB) :
    (Slice product × Option error) × World DB :=
  match S.listAll w.db with
  | (.ok ps, db1) => ((ps, none), ⟨db1, w.calls ++ [.getProducts]⟩)
  | (.error e, db1) => ((.nil, some e), ⟨db1, w.calls ++ [.getProducts]⟩)

/-- Modelled from the spec: accessor `p.getProductByID(db)`; on success the
receiver holds the product read (`getByID`). Returns the receiver after the
call and the error. -/
def product.getProductByID {DB : Type} (S : Storage DB) (p : product) (w : World DB) :
    (product × Option error) × World DB :=
  match S.getByID p.ID w.db with
  | (.ok q, db1) => ((q, none), ⟨db1, w.calls ++ [.getProductByID p]⟩)
  | (.error e, db1) => ((p, some e), ⟨db1, w.calls ++ [.getProductByID p]⟩)

/-- Modelled from the spec: accessor `p.addProduct(db)`; on success the
receiver has its identifier populated by storage (`insert`). -/
def product.addProduct {DB : Type} (S : Storage DB) (p : product) (w : World DB) :
    (product × Option error) × World DB :=
  match S.insert p w.db with
  | (.ok id, db1) => (({ p with ID := id }, none), ⟨db1, w.calls ++ [.addProduct p]⟩)
  | (.error e, db1) => ((p, some e), ⟨db1, w.calls ++ [.addProduct p]⟩)

/-- Modelled from the spec: accessor `p.updateProduct(db)`, overwriting the row
at `p.ID` with the fields of `p` (`update`). -/
def product.updateProduct {DB : Type} (S : Storage DB) (p : product) (w : World DB) :
    Option error × World DB :=
  match S.update p.ID p w.db with
  | (err, db1) => (err, ⟨db1, w.calls ++ [.updateProduct p]⟩)

/-- Modelled from the spec: accessor `p.deleteProductByID(db)`, removing the
row at `p.ID` (`deleteByID`). -/
def product.deleteProductByID {DB : Type} (S : Storage DB) (p : product) (w : World DB) :
    Option error × World DB :=
  match S.deleteByID p.ID w.db with
  | (err, db1) => (err, ⟨db1, w.calls ++ [.deleteProductByID p]⟩)

/-! ## Requests -/

/-- The parts of an `http.Request` the service reads: method, URL path, the
route variables stored by the router (`mux.Vars`), and the body. -/
structure Request where
  Method : String
  Path : String
  Vars : List (String × String)
  Body : String

/-- Indexing a Go `map[string]string`: the zero value (the empty string) when
the key is absent. -/
def mapIndex (m : List (String × String)) (key : String) : String :=
  match m.lookup key with
  | some v => v
  | none => ""

/-! ## Handlers (app.go 59-146) -/

/-- Method `App.getProducts` (app.go 59-66). -/
def App.getProducts {DB : Type} (S : Storage DB) (_r : Request) (w : World DB) :
    Response × World DB :=
  match Inventory.getProducts S w with
  | ((_, some err), w1) => (errorResponse StatusInternalServerError err.Error, w1)
  | ((products, none), w1) => (sendResponse StatusOK (.products products), w1)

/-- Method `App.getProductByID` (app.go 69-88). -/
def App.getProductByID {DB : Type} (S : Storage DB) (r : Request) (w : World DB) :
    Response × World DB :=
  match Atoi (mapIndex r.Vars "id") with
  | none => (errorResponse StatusBadRequest "Invalid product ID", w)
  | some id =>
    let p : product := { product.zero with ID := id }
    match product.getProductByID S p w with
    | ((_, some err), w1) =>
      match err with
      | .ErrNoRows => (errorResponse StatusNotFound "Product not found", w1)
      | _ => (errorResponse StatusInternalServerError err.Error, w1)
    | ((p1, none), w1) => (sendResponse StatusOK (.product p1), w1)

/-- Method `App.addProduct` (app.go 91-105). -/
def App.addProduct {DB : Type} (S : Storage DB) (r : Request) (w : World DB) :
    Response × World DB :=
  match Decode r.Body with
  | none => (errorResponse StatusBadRequest "Invalid request payload", w)
  | some p =>
    match product.addProduct S p w with
    | ((_, some err), w1) => (errorResponse StatusInternalServerError err.Error, w1)
    | ((p1, none), w1) => (sendResponse StatusCreated (.product p1), w1)

/-- Method `App.updateProduct` (app.go 108-129). -/
def App.updateProduct {DB : Type} (S : Storage DB) (r : Request) (w : World DB) :
    Response × World DB :=
  match Atoi (mapIndex r.Vars "id") with
  | none => (errorResponse StatusBadRequest "Invalid product ID", w)
  | some key =>
    match Decode r.Body with
    | none => (errorResponse StatusBadRequest "Invalid request payload", w)
    | some p0 =>
      let p : product := { p0 with ID := key }
      match product.updateProduct S p w with
      | (some err, w1) => (errorResponse StatusInternalServerError err.Error, w1)
      | (none, w1) => (sendResponse StatusOK (.product p), w1)

/-- Method `App.deleteProductByID` (app.go 132-146). -/
def App.deleteProductByID {DB : Type} (S : Storage DB) (r : Request) (w : World DB) :
    Response × World DB :=
  match Atoi (mapIndex r.Vars "id") with
  | none => (errorResponse StatusBadRequest "Invalid product ID", w)
  | some key =>
    let p : product := { product.zero with ID := key }
    match product.deleteProductByID S p w with
    | (some err, w1) => (errorResponse StatusInternalServerError err.Error, w1)
    | (none, w1) => (sendResponse StatusOK (.mapEntry "result" "success"), w1)

/-! ## Routing (app.go 32, 149-155) -/

/-- The five handler functions a route can be bound to. -/
inductive Handler where
  | getProducts
  | addProduct
  | updateProduct
  | getProductByID
  | deleteProductByID
deriving DecidableEq, Repr

/-- Invoking a handler function. -/
def Handler.run {DB : Type} (h : Handler) (S : Storage DB) (r : Request) (w : World DB) :
    Response × World DB :=
  match h with
  | .getProducts => App.getProducts S r w
  | .addProduct => App.addProduct S r w
  | .updateProduct => App.updateProduct S r w
  | .getProductByID => App.getProductByID S r w
  | .deleteProductByID => App.deleteProductByID S r w

/-- A route as registered by `Router.HandleFunc(path, f).Methods(m...)`. -/
structure Route where
  template : String
  methods : List String
  handler : Handler
deriving DecidableEq, Repr

/-- Method `App.handleRoutes` (app.go 149-155): the routes in registration
order. -/
def App.handleRoutes : List Route :=
  [ ⟨"/products", ["GET"], .getProducts⟩,
    ⟨"/product", ["POST"], .addProduct⟩,
    ⟨"/product/{id}", ["PUT"], .updateProduct⟩,
    ⟨"/product/{id}", ["GET"], .getProductByID⟩,
    ⟨"/product/{id}", ["DELETE"], .deleteProductByID⟩ ]

/-- Splits a path at every slash: "/product/5" gives "", "product", "5". -/
def splitSlash : List Char → List (List Char)
  | [] => [[]]
  | c :: cs =>
    match splitSlash cs with
    | seg :: segs => if c == '/' then [] :: seg :: segs else (c :: seg) :: segs
    | [] => if c == '/' then [[], []] else [[c]]

/-- The name of a template segment of the form {name}, if it is one. -/
def varName (seg : List Char) : Option String :=
  match seg with
  | '\x7b' :: rest =>
    match rest.reverse with
    | '\x7d' :: name => some (String.mk name.reverse)
    | _ => none
  | _ => none

/-- Matches path segments against template segments, as the regular expression
mux compiles from the template does: a literal segment matches itself, {name}
matches one non-empty segment (the pattern [^/]+) and binds it. With
StrictSlash the expression ends in an optional slash, so one empty segment may
follow the last one. Returns the variables bound and whether that trailing
slash was present. -/
def matchSegs : List (List Char) → List (List Char) → Option (List (String × String) × Bool)
  | [], [] => some ([], false)
  | [], [[]] => some ([], true)
  | [], _ => none
  | _ :: _, [] => none
  | t :: ts, s :: ss =>
    match varName t with
    | some name =>
      if s.isEmpty then none
      else
        match matchSegs ts ss with
        | some (vars, slash) => some ((name, String.mk s) :: vars, slash)
        | none => none
    | none => if t = s then matchSegs ts ss else none

/-- The path matcher of a route on a router built with `StrictSlash(true)`
(app.go 32), for a template without a trailing slash. -/
def Route.matchPath (rt : Route) (path : String) : Option (List (String × String) × Bool) :=
  match splitSlash rt.template.toList, splitSlash path.toList with
  | [] :: ts, [] :: ss => matchSegs ts ss
  | _, _ => none

/-- The function `path.Clean` on the segments of a rooted path: empty and "."
segments are dropped, ".." removes the segment before it. `acc` holds the
segments kept so far, last first. -/
def cleanSegs (acc : List (List Char)) : List (List Char) → List (List Char)
  | [] => acc.reverse
  | s :: ss =>
    if s.isEmpty || s = ['.'] then cleanSegs acc ss
    else if s = ['.', '.'] then cleanSegs acc.tail ss
    else cleanSegs (s :: acc) ss

/-- The function `cleanPath` of mux: the canonical form of a URL path, keeping
a trailing slash. -/
def cleanPath (path : String) : String :=
  let p : List Char :=
    match path.toList with
    | [] => ['/']
    | '/' :: r => '/' :: r
    | c :: r => '/' :: c :: r
  let segs := cleanSegs [] (splitSlash p)
  let np : List Char := if segs.isEmpty then ['/'] else segs.flatMap (fun s => '/' :: s)
  if p.getLast? = some '/' && np != ['/'] then String.mk (np ++ ['/']) else String.mk np

/-- What the router does with a request. -/
inductive Dispatch where
  | invoke (h : Handler) (vars : List (String × String))
  | redirect (location : String)
  | methodNotAllowed
  | notFound
deriving DecidableEq, Repr

/-- The method `Router.Match` of mux over the routes in registration order. The
first route whose path and method both match wins; with StrictSlash, a match
that differs from the template by a trailing slash is answered by a redirect to
the path without it. `mismatch` records that some route matched the path but
not the method (ErrMethodMismatch). -/
def matchRoutes (r : Request) (mismatch : Bool) : List Route → Dispatch
  | [] => if mismatch then .methodNotAllowed else .notFound
  | rt :: rest =>
    match rt.matchPath r.Path with
    | none => matchRoutes r mismatch rest
    | some (vars, slash) =>
      if r.Method ∈ rt.methods then
        if slash then .redirect (String.mk r.Path.toList.dropLast) else .invoke rt.handler vars
      else matchRoutes r true rest

/-- The method `Router.ServeHTTP` of mux for the router of `Initialize`: a path
not in canonical form is redirected to its canonical form; otherwise the
request goes to the matching route, to the 405 handler when only the method
failed to match, and to the 404 handler when no route matched. -/
def ServeHTTP (r : Request) : Dispatch :=
  if cleanPath r.Path ≠ r.Path then .redirect (cleanPath r.Path)
  else matchRoutes r false App.handleRoutes

/-- A route is bound to a (method, path) pair when its path matcher and its
method matcher both accept it. -/
def Route.accepts (rt : Route) (method path : String) : Bool :=
  (rt.matchPath path).isSome && decide (method ∈ rt.methods)

/-- The status of the response the router itself writes; `none` when a handler
is invoked instead. -/
def Dispatch.status : Dispatch → Option Nat
  | .invoke _ _ => none
  | .redirect _ => some StatusMovedPermanently
  | .methodNotAllowed => some StatusMethodNotAllowed
  | .notFound => some StatusNotFound

/-! ## A concrete storage for worked examples -/

/-- An in-memory table: its rows in identifier order, the last identifier
issued, and whether the connection is down. -/
structure MemDB where
  rows : List product
  lastID : Int
  down : Bool
deriving DecidableEq, Repr

/-- Modelled from the spec: a storage accessor over `MemDB` behaving as section
4.1 describes: identifiers are issued in sequence, update and delete of an
absent identifier are silent, every operation fails when the connection is
down. -/
def memStorage : Storage MemDB where
  listAll := fun db =>
    if db.down then (.error (.other "connection refused"), db) else (.ok (.mk db.rows), db)
  getByID := fun id db =>
    if db.down then (.error (.other "connection refused"), db)
    else
      match db.rows.find? (fun q => q.ID == id) with
      | some q => (.ok q, db)
      | none => (.error .ErrNoRows, db)
  insert := fun p db =>
    if db.down then (.error (.other "connection refused"), db)
    else (.ok (db.lastID + 1),
          { db with rows := db.rows ++ [{ p with ID := db.lastID + 1 }], lastID := db.lastID + 1 })
  update := fun id p db =>
    if db.down then (some (.other "connection refused"), db)
    else (none, { db with rows := db.rows.map (fun q => if q.ID == id then { p with ID := id } else q) })
  deleteByID := fun id db =>
    if db.down then (some (.other "connection refused"), db)
    else (none, { db with rows := db.rows.filter (fun q => q.ID != id) })

/-- The empty table. -/
def MemDB.empty : MemDB := { rows := [], lastID := 0, down := false }

/-- A storage whose `listAll` returns the nil slice and no error. -/
def nilStorage : Storage Unit where
  listAll := fun db => (.ok .nil, db)
  getByID := fun _ db => (.error .ErrNoRows, db)
  insert := fun _ db => (.ok 1, db)
  update := fun _ _ db => (none, db)
  deleteByID := fun _ db => (none, db)

/-- A product whose price is NaN (bit pattern 0x7FF8000000000000). -/
def nanProduct : product :=
  { ID := 1, Name := "Widget", Quantity := 5, Price := ⟨0x7FF8000000000000⟩ }

/-- A storage whose reads succeed and return `nanProduct`: `getByID` returns it,
`listAll` returns the non-nil sequence holding it. -/
def nanStorage : Storage Unit where
  listAll := fun db => (.ok (.mk [nanProduct]), db)
  getByID := fun _ db => (.ok nanProduct, db)
  insert := fun _ db => (.ok 1, db)
  update := fun _ _ db => (none, db)
  deleteByID := fun _ db => (none, db)

/-! ## Requests and states of the worked examples -/

/-- The world with an empty table and no storage call made. -/
def emptyWorld : World MemDB := ⟨MemDB.empty, []⟩

/-- The body of the scenario of section 8. -/
def widgetBody : String := "\x7b\"name\":\"Widget\",\"quantity\":5,\"price\":9.99\x7d"

/-- The product `widgetBody` decodes to; the price is the float64 nearest to
9.99 (bit pattern 0x4023FAE147AE147B). -/
def widget : product := { ID := 0, Name := "Widget", Quantity := 5, Price := ⟨4621813488089437307⟩ }

/-- The world whose table holds the Widget under identifier 1, with no storage
call made. -/
def widgetWorld : World MemDB :=
  ⟨{ rows := [{ widget with ID := 1 }], lastID := 1, down := false }, []⟩

/-- The world whose connection to the database is down. -/
def downWorld : World MemDB := ⟨{ rows := [], lastID := 0, down := true }, []⟩

/-- A well-formed JSON object followed by text that is not JSON. -/
def trailingBody : String := "\x7b\"name\":\"Widget\",\"quantity\":5,\"price\":9.99\x7d trailing"

/-- A request as a handler receives it from the router: route variable `id`
set to `id`, body `body`. -/
def requestWith (method path id body : String) : Request :=
  { Method := method, Path := path, Vars := [("id", id)], Body := body }

/-! ## The response writer -/

@[simp] theorem sendResponse_statusCode (c : Nat) (pl : Payload) :
    (sendResponse c pl).statusCode = c := rfl

@[simp] theorem sendResponse_body (c : Nat) (pl : Payload) :
    (sendResponse c pl).body = Marshal pl := rfl

@[simp] theorem sendResponse_header (c : Nat) (pl : Payload) :
    (sendResponse c pl).header = [("Content-Type", "application/json")] := rfl

@[simp] theorem errorResponse_statusCode (c : Nat) (msg : String) :
    (errorResponse c msg).statusCode = c := rfl

@[simp] theorem errorResponse_body (c : Nat) (msg : String) :
    (errorResponse c msg).body = some (.obj [("error", .str msg)]) := rfl

@[simp] theorem errorResponse_header (c : Nat) (msg : String) :
    (errorResponse c msg).header = [("Content-Type", "application/json")] := rfl

/-! ## Each handler, path by path -/

section Handlers

variable {DB : Type} (S : Storage DB) (r : Request) (w : World DB)

theorem getProducts_ok {ps : Slice product} {db1 : DB} (h : S.listAll w.db = (.ok ps, db1)) :
    App.getProducts S r w
      = (sendResponse StatusOK (.products ps), ⟨db1, w.calls ++ [.getProducts]⟩) := by
  simp [App.getProducts, getProducts, h]

theorem getProducts_error {e : error} {db1 : DB} (h : S.listAll w.db = (.error e, db1)) :
    App.getProducts S r w
      = (errorResponse StatusInternalServerError e.Error, ⟨db1, w.calls ++ [.getProducts]⟩) := by
  simp [App.getProducts, getProducts, h]

theorem getProductByID_badID (h : Atoi (mapIndex r.Vars "id") = none) :
    App.getProductByID S r w = (errorResponse StatusBadRequest "Invalid product ID", w) := by
  simp [App.getProductByID, h]

theorem getProductByID_ok {id : Int} {q : product} {db1 : DB}
    (h : Atoi (mapIndex r.Vars "id") = some id) (hs : S.getByID id w.db = (.ok q, db1)) :
    App.getProductByID S r w
      = (sendResponse StatusOK (.product q),
         ⟨db1, w.calls ++ [.getProductByID { product.zero with ID := id }]⟩) := by
  simp [App.getProductByID, product.getProductByID, h, hs]

theorem getProductByID_noRows {id : Int} {db1 : DB}
    (h : Atoi (mapIndex r.Vars "id") = some id)
    (hs : S.getByID id w.db = (.error .ErrNoRows, db1)) :
    App.getProductByID S r w
      = (errorResponse StatusNotFound "Product not found",
         ⟨db1, w.calls ++ [.getProductByID { product.zero with ID := id }]⟩) := by
  simp [App.getProductByID, product.getProductByID, h, hs]

theorem getProductByID_error {id : Int} {e : error} {db1 : DB}
    (h : Atoi (mapIndex r.Vars "id") = some id) (he : e ≠ .ErrNoRows)
    (hs : S.getByID id w.db = (.error e, db1)) :
    App.getProductByID S r w
      = (errorResponse StatusInternalServerError e.Error,
         ⟨db1, w.calls ++ [.getProductByID { product.zero with ID := id }]⟩) := by
  cases e with
  | ErrNoRows => exact absurd rfl he
  | other msg => simp [App.getProductByID, product.getProductByID, h, hs]

theorem addProduct_badBody (h : Decode r.Body = none) :
    App.addProduct S r w = (errorResponse StatusBadRequest "Invalid request payload", w) := by
  simp [App.addProduct, h]

theorem addProduct_ok {p : product} {id : Int} {db1 : DB}
    (h : Decode r.Body = some p) (hs : S.insert p w.db = (.ok id, db1)) :
    App.addProduct S r w
      = (sendResponse StatusCreated (.product { p with ID := id }),
         ⟨db1, w.calls ++ [.addProduct p]⟩) := by
  simp [App.addProduct, product.addProduct, h, hs]

theorem addProduct_error {p : product} {e : error} {db1 : DB}
    (h : Decode r.Body = some p) (hs : S.insert p w.db = (.error e, db1)) :
    App.addProduct S r w
      = (errorResponse StatusInternalServerError e.Error,
         ⟨db1, w.calls ++ [.addProduct p]⟩) := by
  simp [App.addProduct, product.addProduct, h, hs]

theorem updateProduct_badID (h : Atoi (mapIndex r.Vars "id") = none) :
    App.updateProduct S r w = (errorResponse StatusBadRequest "Invalid product ID", w) := by
  simp [App.updateProduct, h]

theorem updateProduct_badBody {key : Int} (h : Atoi (mapIndex r.Vars "id") = some key)
    (hb : Decode r.Body = none) :
    App.updateProduct S r w = (errorResponse StatusBadRequest "Invalid request payload", w) := by
  simp [App.updateProduct, h, hb]

theorem updateProduct_ok {key : Int} {p : product} {db1 : DB}
    (h : Atoi (mapIndex r.Vars "id") = some key) (hb : Decode r.Body = some p)
    (hs : S.update key { p with ID := key } w.db = (none, db1)) :
    App.updateProduct S r w
      = (sendResponse StatusOK (.product { p with ID := key }),
         ⟨db1, w.calls ++ [.updateProduct { p with ID := key }]⟩) := by
  simp [App.updateProduct, product.updateProduct, h, hb, hs]

theorem updateProduct_error {key : Int} {p : product} {e : error} {db1 : DB}
    (h : Atoi (mapIndex r.Vars "id") = some key) (hb : Decode r.Body = some p)
    (hs : S.update key { p with ID := key } w.db = (some e, db1)) :
    App.updateProduct S r w
      = (errorResponse StatusInternalServerError e.Error,
         ⟨db1, w.calls ++ [.updateProduct { p with ID := key }]⟩) := by
  simp [App.updateProduct, product.updateProduct, h, hb, hs]

theorem deleteProductByID_badID (h : Atoi (mapIndex r.Vars "id") = none) :
    App.deleteProductByID S r w = (errorResponse StatusBadRequest "Invalid product ID", w) := by
  simp [App.deleteProductByID, h]

theorem deleteProductByID_ok {key : Int} {db1 : DB}
    (h : Atoi (mapIndex r.Vars "id") = some key) (hs : S.deleteByID key w.db = (none, db1)) :
    App.deleteProductByID S r w
      = (sendResponse StatusOK (.mapEntry "result" "success"),
         ⟨db1, w.calls ++ [.deleteProductByID { product.zero with ID := key }]⟩) := by
  simp [App.deleteProductByID, product.deleteProductByID, h, hs]

theorem deleteProductByID_error {key : Int} {e : error} {db1 : DB}
    (h : Atoi (mapIndex r.Vars "id") = some key) (hs : S.deleteByID key w.db = (some e, db1)) :
    App.deleteProductByID S r w
      = (errorResponse StatusInternalServerError e.Error,
         ⟨db1, w.calls ++ [.deleteProductByID { product.zero with ID := key }]⟩) := by
  simp [App.deleteProductByID, product.deleteProductByID, h, hs]

end Handlers

/-! ## Claims about the handlers -/

/-- C1: whenever `strconv.Atoi` rejects the path parameter `id`, each of
getProductByID, updateProduct and deleteProductByID answers 400 with the body
{"error":"Invalid product ID"}, whatever the request body is, and leaves the
world untouched. -/
theorem C1_invalid_id_is_400 {DB : Type} (S : Storage DB) (r : Request) (w : World DB)
    (h : Atoi (mapIndex r.Vars "id") = none) :
    ((App.getProductByID S r w).1.statusCode = 400 ∧
      (App.getProductByID S r w).1.body = some (.obj [("error", .str "Invalid product ID")])) ∧
    ((App.updateProduct S r w).1.statusCode = 400 ∧
      (App.updateProduct S r w).1.body = some (.obj [("error", .str "Invalid product ID")])) ∧
    ((App.deleteProductByID S r w).1.statusCode = 400 ∧
      (App.deleteProductByID S r w).1.body = some (.obj [("error", .str "Invalid product ID")])) := by
  rw [getProductByID_badID S r w h, updateProduct_badID S r w h, deleteProductByID_badID S r w h]
  simp [StatusBadRequest]

/-- Witness of C1: the identifiers "abc", "", "1.5" and 9223372036854775808 are
all rejected by Atoi, and a PUT of a malformed body to /product/abc is answered
400 "Invalid product ID" by all three handlers. -/
theorem C1_invalid_id_is_400_witness :
    (Atoi "abc" = none ∧ Atoi "" = none ∧ Atoi "1.5" = none ∧
      Atoi "9223372036854775808" = none) ∧
    ((App.getProductByID memStorage (requestWith "PUT" "/product/abc" "abc" "not json")
        emptyWorld).1.statusCode = 400 ∧
      (App.getProductByID memStorage (requestWith "PUT" "/product/abc" "abc" "not json")
        emptyWorld).1.body = some (.obj [("error", .str "Invalid product ID")])) ∧
    ((App.updateProduct memStorage (requestWith "PUT" "/product/abc" "abc" "not json")
        emptyWorld).1.statusCode = 400 ∧
      (App.updateProduct memStorage (requestWith "PUT" "/product/abc" "abc" "not json")
        emptyWorld).1.body = some (.obj [("error", .str "Invalid product ID")])) ∧
    ((App.deleteProductByID memStorage (requestWith "PUT" "/product/abc" "abc" "not json")
        emptyWorld).1.statusCode = 400 ∧
      (App.deleteProductByID memStorage (requestWith "PUT" "/product/abc" "abc" "not json")
        emptyWorld).1.body = some (.obj [("error", .str "Invalid product ID")])) :=
  ⟨by decide,
   C1_invalid_id_is_400 memStorage (requestWith "PUT" "/product/abc" "abc" "not json")
     emptyWorld (by decide)⟩

/-- C2 as stated fails: the body made of a well-formed JSON object followed by
the text " trailing" is not a well-formed JSON document, yet addProduct answers
201 and updateProduct (with the integer id 1) answers 200, not 400. -/
theorem C2_counterexample_trailing_text_accepted :
    wellFormedDocument trailingBody = false ∧
    (App.addProduct memStorage (requestWith "POST" "/product" "" trailingBody)
      emptyWorld).1.statusCode = 201 ∧
    (App.updateProduct memStorage (requestWith "PUT" "/product/1" "1" trailingBody)
      emptyWorld).1.statusCode = 200 := by
  decide!

/-- C2 amended: whenever `Decode` fails on the request body, that is whenever
the first JSON value of the body is malformed, incomplete or not decodable into
a product (what follows that value is not examined), addProduct answers 400
with the body {"error":"Invalid request payload"}, and updateProduct does the
same whenever its path id is an integer. -/
theorem C2_undecodable_body_is_400 {DB : Type} (S : Storage DB) (r : Request) (w : World DB)
    (h : Decode r.Body = none) :
    ((App.addProduct S r w).1.statusCode = 400 ∧
      (App.addProduct S r w).1.body = some (.obj [("error", .str "Invalid request payload")])) ∧
    (∀ key : Int, Atoi (mapIndex r.Vars "id") = some key →
      (App.updateProduct S r w).1.statusCode = 400 ∧
      (App.updateProduct S r w).1.body
        = some (.obj [("error", .str "Invalid request payload")])) := by
  refine ⟨?_, fun key hk => ?_⟩
  · rw [addProduct_badBody S r w h]; simp [StatusBadRequest]
  · rw [updateProduct_badBody S r w hk h]; simp [StatusBadRequest]

/-- Witness of C2 amended: the body `"not json"` (a JSON string, which is not a
product) makes Decode fail, and both handlers answer 400 "Invalid request
payload". -/
theorem C2_undecodable_body_is_400_witness :
    Decode "\"not json\"" = none ∧
    ((App.addProduct memStorage (requestWith "PUT" "/product/1" "1" "\"not json\"")
        emptyWorld).1.statusCode = 400 ∧
      (App.addProduct memStorage (requestWith "PUT" "/product/1" "1" "\"not json\"")
        emptyWorld).1.body = some (.obj [("error", .str "Invalid request payload")])) ∧
    (∀ key : Int, Atoi (mapIndex (requestWith "PUT" "/product/1" "1" "\"not json\"").Vars "id")
        = some key →
      (App.updateProduct memStorage (requestWith "PUT" "/product/1" "1" "\"not json\"")
        emptyWorld).1.statusCode = 400 ∧
      (App.updateProduct memStorage (requestWith "PUT" "/product/1" "1" "\"not json\"")
        emptyWorld).1.body = some (.obj [("error", .str "Invalid request payload")])) :=
  ⟨by decide,
   C2_undecodable_body_is_400 memStorage (requestWith "PUT" "/product/1" "1" "\"not json\"")
     emptyWorld (by decide)⟩

/-- The object `json.Marshal` writes for a product with a finite price. -/
theorem productJson_finite (p : product) (h : p.Price.isFinite = true) :
    productJson p = some (.obj [("id", .int p.ID), ("name", .str p.Name),
      ("quantity", .int p.Quantity), ("price", .float p.Price)]) := by
  simp [productJson, productObject, h]

/-- For a product whose price is NaN or an infinity `json.Marshal` fails. -/
theorem productJson_not_finite (p : product) (h : p.Price.isFinite = false) :
    productJson p = none := by
  simp [productJson, h]

/-- C3 as stated fails: when storage returns, without error, a product whose
price is NaN, getProductByID answers 200 with an empty body (`json.Marshal`
fails and `sendResponse` drops its error), not with the JSON encoding of the
product read. -/
theorem C3_counterexample_nan_price_empty_body :
    Atoi (mapIndex (requestWith "GET" "/product/1" "1" "").Vars "id") = some 1 ∧
    nanStorage.getByID 1 () = (.ok nanProduct, ()) ∧
    (App.getProductByID nanStorage (requestWith "GET" "/product/1" "1" "")
      ⟨(), []⟩).1.statusCode = 200 ∧
    (App.getProductByID nanStorage (requestWith "GET" "/product/1" "1" "")
      ⟨(), []⟩).1.body = none := by
  refine ⟨by decide, rfl, by decide, ?_⟩
  have hid : Atoi (mapIndex (requestWith "GET" "/product/1" "1" "").Vars "id") = some 1 := by
    decide
  rw [getProductByID_ok nanStorage (requestWith "GET" "/product/1" "1" "") ⟨(), []⟩ hid
    (rfl : nanStorage.getByID 1 () = (.ok nanProduct, ()))]
  exact productJson_not_finite nanProduct (by decide)

/-- C3 amended: for an integer path id, getProductByID asks storage for that id
and maps the result: the not-found error gives 404
{"error":"Product not found"}; any other error e gives 500
{"error": e.Error()}; no error gives 200, with the JSON encoding of the product
read as body when its price is finite, and with an empty body when its price is
NaN or an infinity. No other status is produced. -/
theorem C3_getProductByID_maps_storage_result {DB : Type} (S : Storage DB) (r : Request)
    (w : World DB) (id : Int) (h : Atoi (mapIndex r.Vars "id") = some id) :
    (∀ db1, S.getByID id w.db = (.error .ErrNoRows, db1) →
      (App.getProductByID S r w).1.statusCode = 404 ∧
      (App.getProductByID S r w).1.body = some (.obj [("error", .str "Product not found")])) ∧
    (∀ e db1, e ≠ .ErrNoRows → S.getByID id w.db = (.error e, db1) →
      (App.getProductByID S r w).1.statusCode = 500 ∧
      (App.getProductByID S r w).1.body = some (.obj [("error", .str e.Error)])) ∧
    (∀ q db1, S.getByID id w.db = (.ok q, db1) →
      (App.getProductByID S r w).1.statusCode = 200 ∧
      (q.Price.isFinite = true →
        (App.getProductByID S r w).1.body
          = some (.obj [("id", .int q.ID), ("name", .str q.Name),
                        ("quantity", .int q.Quantity), ("price", .float q.Price)])) ∧
      (q.Price.isFinite = false → (App.getProductByID S r w).1.body = none)) ∧
    ((App.getProductByID S r w).1.statusCode = 200 ∨
      (App.getProductByID S r w).1.statusCode = 404 ∨
      (App.getProductByID S r w).1.statusCode = 500) := by
  refine ⟨fun db1 hs => ?_, fun e db1 he hs => ?_, fun q db1 hs => ?_, ?_⟩
  · rw [getProductByID_noRows S r w h hs]; simp [StatusNotFound]
  · rw [getProductByID_error S r w h he hs]; simp [StatusInternalServerError]
  · rw [getProductByID_ok S r w h hs]
    refine ⟨by simp [StatusOK], fun hq => ?_, fun hq => ?_⟩
    · simp [Marshal, productJson_finite q hq]
    · simp [Marshal, productJson_not_finite q hq]
  · rcases hs : S.getByID id w.db with ⟨res, db1⟩
    cases res with
    | ok q => rw [getProductByID_ok S r w h hs]; simp [StatusOK]
    | error e =>
      by_cases he : e = .ErrNoRows
      · subst he; rw [getProductByID_noRows S r w h hs]; simp [StatusNotFound]
      · rw [getProductByID_error S r w h he hs]; simp [StatusInternalServerError]

/-- Witness of C3 amended, one request per branch: GET /product/1 is answered
200 with the Widget when the table holds it, 404
{"error":"Product not found"} on the empty table, and 500 with the storage
error's message when the connection is down. -/
theorem C3_getProductByID_maps_storage_result_witness :
    ((App.getProductByID memStorage (requestWith "GET" "/product/1" "1" "")
        widgetWorld).1.statusCode = 200 ∧
      (App.getProductByID memStorage (requestWith "GET" "/product/1" "1" "")
        widgetWorld).1.body
        = some (.obj [("id", .int 1), ("name", .str "Widget"), ("quantity", .int 5),
                      ("price", .float ⟨4621813488089437307⟩)])) ∧
    ((App.getProductByID memStorage (requestWith "GET" "/product/1" "1" "")
        emptyWorld).1.statusCode = 404 ∧
      (App.getProductByID memStorage (requestWith "GET" "/product/1" "1" "")
        emptyWorld).1.body = some (.obj [("error", .str "Product not found")])) ∧
    ((App.getProductByID memStorage (requestWith "GET" "/product/1" "1" "")
        downWorld).1.statusCode = 500 ∧
      (App.getProductByID memStorage (requestWith "GET" "/product/1" "1" "")
        downWorld).1.body = some (.obj [("error", .str "connection refused")])) :=
  have ok := (C3_getProductByID_maps_storage_result memStorage
    (requestWith "GET" "/product/1" "1" "") widgetWorld 1 (by decide)).2.2.1
    { widget with ID := 1 } widgetWorld.db rfl
  ⟨⟨ok.1, ok.2.1 (by decide)⟩,
   (C3_getProductByID_maps_storage_result memStorage (requestWith "GET" "/product/1" "1" "")
     emptyWorld 1 (by decide)).1 MemDB.empty rfl,
   (C3_getProductByID_maps_storage_result memStorage (requestWith "GET" "/product/1" "1" "")
     downWorld 1 (by decide)).2.1 (.other "connection refused") downWorld.db
     (by decide) rfl⟩

/-- C4: for an integer path id k and a body that decodes to p, updateProduct
makes one storage call, update of p with its identifier replaced by k (the
identifier of the body is ignored). If storage reports no error the answer is
200 with the JSON of that product (id k, name, quantity and price of p); if it
reports an error e the answer is 500 {"error": e.Error()}. The handler never
answers 404, on any request. -/
theorem C4_updateProduct {DB : Type} (S : Storage DB) (r : Request) (w : World DB)
    (k : Int) (p : product)
    (h : Atoi (mapIndex r.Vars "id") = some k) (hb : Decode r.Body = some p) :
    (App.updateProduct S r w).2.calls
      = w.calls ++ [.updateProduct { ID := k, Name := p.Name, Quantity := p.Quantity,
                                     Price := p.Price }] ∧
    (∀ db1, S.update k { p with ID := k } w.db = (none, db1) →
      (App.updateProduct S r w).1.statusCode = 200 ∧
      (App.updateProduct S r w).1.body
        = productJson { ID := k, Name := p.Name, Quantity := p.Quantity, Price := p.Price } ∧
      (App.updateProduct S r w).2.db = db1) ∧
    (∀ e db1, S.update k { p with ID := k } w.db = (some e, db1) →
      (App.updateProduct S r w).1.statusCode = 500 ∧
      (App.updateProduct S r w).1.body = some (.obj [("error", .str e.Error)])) ∧
    (∀ (r1 : Request) (w1 : World DB), (App.updateProduct S r1 w1).1.statusCode ≠ 404) := by
  refine ⟨?_, fun db1 hs => ?_, fun e db1 hs => ?_, fun r1 w1 => ?_⟩
  · rcases hs : S.update k { p with ID := k } w.db with ⟨res, db1⟩
    cases res with
    | none => rw [updateProduct_ok S r w h hb hs]
    | some e => rw [updateProduct_error S r w h hb hs]
  · rw [updateProduct_ok S r w h hb hs]; simp [StatusOK, Marshal]
  · rw [updateProduct_error S r w h hb hs]; simp [StatusInternalServerError]
  · rcases h1 : Atoi (mapIndex r1.Vars "id") with _ | k1
    · rw [updateProduct_badID S r1 w1 h1]; simp [StatusBadRequest]
    · rcases hb1 : Decode r1.Body with _ | p1
      · rw [updateProduct_badBody S r1 w1 h1 hb1]; simp [StatusBadRequest]
      · rcases hs : S.update k1 { p1 with ID := k1 } w1.db with ⟨res, db1⟩
        cases res with
        | none => rw [updateProduct_ok S r1 w1 h1 hb1 hs]; simp [StatusOK]
        | some e => rw [updateProduct_error S r1 w1 h1 hb1 hs]; simp [StatusInternalServerError]

/-- Witness of C4: PUT /product/1 on the empty table, with a body carrying
"id":7, calls update with identifier 1, and is answered 200 with the product
under identifier 1 although no such row exists. -/
theorem C4_updateProduct_witness :
    (App.updateProduct memStorage
        (requestWith "PUT" "/product/1" "1" "\x7b\"id\":7,\"name\":\"W\"\x7d") emptyWorld).2.calls
      = emptyWorld.calls ++ [.updateProduct { ID := 1, Name := "W", Quantity := 0, Price := ⟨0⟩ }] ∧
    (App.updateProduct memStorage
        (requestWith "PUT" "/product/1" "1" "\x7b\"id\":7,\"name\":\"W\"\x7d")
        emptyWorld).1.statusCode = 200 ∧
    (App.updateProduct memStorage
        (requestWith "PUT" "/product/1" "1" "\x7b\"id\":7,\"name\":\"W\"\x7d")
        emptyWorld).1.body
      = some (.obj [("id", .int 1), ("name", .str "W"), ("quantity", .int 0),
                    ("price", .float ⟨0⟩)]) :=
  have key := C4_updateProduct memStorage
    (requestWith "PUT" "/product/1" "1" "\x7b\"id\":7,\"name\":\"W\"\x7d") emptyWorld 1
    { ID := 7, Name := "W", Quantity := 0, Price := ⟨0⟩ } (by decide) (by decide)
  ⟨key.1, (key.2.1 MemDB.empty rfl).1, (key.2.1 MemDB.empty rfl).2.1⟩

/-- C5: for a body that decodes to p, addProduct makes exactly one storage
call, the insert of p. If insert succeeds with the identifier id the answer is
201 with the JSON of the product left by insert: identifier id, and the name,
quantity and price submitted. If insert fails with error e the answer is 500
{"error": e.Error()}. -/
theorem C5_addProduct {DB : Type} (S : Storage DB) (r : Request) (w : World DB)
    (p : product) (hb : Decode r.Body = some p) :
    (App.addProduct S r w).2.calls = w.calls ++ [.addProduct p] ∧
    (∀ id db1, S.insert p w.db = (.ok id, db1) →
      (App.addProduct S r w).1.statusCode = 201 ∧
      (App.addProduct S r w).1.body
        = productJson { ID := id, Name := p.Name, Quantity := p.Quantity, Price := p.Price } ∧
      (App.addProduct S r w).2.db = db1) ∧
    (∀ e db1, S.insert p w.db = (.error e, db1) →
      (App.addProduct S r w).1.statusCode = 500 ∧
      (App.addProduct S r w).1.body = some (.obj [("error", .str e.Error)])) := by
  refine ⟨?_, fun id db1 hs => ?_, fun e db1 hs => ?_⟩
  · rcases hs : S.insert p w.db with ⟨res, db1⟩
    cases res with
    | ok id => rw [addProduct_ok S r w hb hs]
    | error e => rw [addProduct_error S r w hb hs]
  · rw [addProduct_ok S r w hb hs]; simp [StatusCreated, Marshal]
  · rw [addProduct_error S r w hb hs]; simp [StatusInternalServerError]

/-- Witness of C5: the scenario of section 8. POST /product with the Widget
body on the empty table makes the single call insert(Widget) and is answered
201 with the Widget under identifier 1. -/
theorem C5_addProduct_witness :
    (App.addProduct memStorage (requestWith "POST" "/product" "" widgetBody) emptyWorld).2.calls
      = emptyWorld.calls ++ [.addProduct widget] ∧
    (App.addProduct memStorage (requestWith "POST" "/product" "" widgetBody)
      emptyWorld).1.statusCode = 201 ∧
    (App.addProduct memStorage (requestWith "POST" "/product" "" widgetBody) emptyWorld).1.body
      = some (.obj [("id", .int 1), ("name", .str "Widget"), ("quantity", .int 5),
                    ("price", .float ⟨4621813488089437307⟩)]) :=
  have key := C5_addProduct memStorage (requestWith "POST" "/product" "" widgetBody)
    emptyWorld widget (by decide!)
  ⟨key.1, (key.2.1 1 _ rfl).1, (key.2.1 1 _ rfl).2.1⟩

/-- C6: delete is idempotent at the HTTP level. For an integer id k, if the
storage accessor does not fail on the two calls, two deleteProductByID requests
in succession are both answered 200 with the body {"result":"success"},
whether or not a product with identifier k existed. -/
theorem C6_delete_twice {DB : Type} (S : Storage DB) (r : Request) (w : World DB) (k : Int)
    (h : Atoi (mapIndex r.Vars "id") = some k)
    (h1 : (S.deleteByID k w.db).1 = none)
    (h2 : (S.deleteByID k (S.deleteByID k w.db).2).1 = none) :
    ((App.deleteProductByID S r w).1.statusCode = 200 ∧
      (App.deleteProductByID S r w).1.body = some (.obj [("result", .str "success")])) ∧
    ((App.deleteProductByID S r (App.deleteProductByID S r w).2).1.statusCode = 200 ∧
      (App.deleteProductByID S r (App.deleteProductByID S r w).2).1.body
        = some (.obj [("result", .str "success")])) := by
  have e1 : S.deleteByID k w.db = (none, (S.deleteByID k w.db).2) := Prod.ext h1 rfl
  have s1 := deleteProductByID_ok S r w h e1
  have e2 : S.deleteByID k (App.deleteProductByID S r w).2.db
      = (none, (S.deleteByID k (S.deleteByID k w.db).2).2) := by
    rw [s1]; exact Prod.ext h2 rfl
  have s2 := deleteProductByID_ok S r (App.deleteProductByID S r w).2 h e2
  rw [s2, s1]
  simp [StatusOK, Marshal]

/-- Witness of C6: DELETE /product/1 twice on the empty table, where product 1
never existed. -/
theorem C6_delete_twice_witness :
    ((App.deleteProductByID memStorage (requestWith "DELETE" "/product/1" "1" "")
        emptyWorld).1.statusCode = 200 ∧
      (App.deleteProductByID memStorage (requestWith "DELETE" "/product/1" "1" "")
        emptyWorld).1.body = some (.obj [("result", .str "success")])) ∧
    ((App.deleteProductByID memStorage (requestWith "DELETE" "/product/1" "1" "")
        (App.deleteProductByID memStorage (requestWith "DELETE" "/product/1" "1" "")
          emptyWorld).2).1.statusCode = 200 ∧
      (App.deleteProductByID memStorage (requestWith "DELETE" "/product/1" "1" "")
        (App.deleteProductByID memStorage (requestWith "DELETE" "/product/1" "1" "")
          emptyWorld).2).1.body = some (.obj [("result", .str "success")])) :=
  C6_delete_twice memStorage (requestWith "DELETE" "/product/1" "1" "") emptyWorld 1
    (by decide) (by decide) (by decide)

/-- C7 as stated fails. When storage returns the nil slice and no error, the
body of the 200 answer is the JSON value null, not the array []. And when
storage returns a non-nil sequence holding a product whose price is NaN, the
200 answer has an empty body, not an array. -/
theorem C7_counterexample_body_not_array :
    (nilStorage.listAll () = (.ok .nil, ()) ∧
      (App.getProducts nilStorage (requestWith "GET" "/products" "" "")
        ⟨(), []⟩).1.statusCode = 200 ∧
      (App.getProducts nilStorage (requestWith "GET" "/products" "" "")
        ⟨(), []⟩).1.body = some .null ∧
      (App.getProducts nilStorage (requestWith "GET" "/products" "" "")
        ⟨(), []⟩).1.body ≠ some (.arr [])) ∧
    (nanStorage.listAll () = (.ok (.mk [nanProduct]), ()) ∧
      (App.getProducts nanStorage (requestWith "GET" "/products" "" "")
        ⟨(), []⟩).1.statusCode = 200 ∧
      (App.getProducts nanStorage (requestWith "GET" "/products" "" "")
        ⟨(), []⟩).1.body = none) := by
  refine ⟨⟨rfl, rfl, rfl, ?_⟩, rfl, rfl, ?_⟩
  · intro h
    have h1 : (some Json.null : Option Json) = some (.arr []) := h
    cases h1
  · rw [getProducts_ok nanStorage (requestWith "GET" "/products" "" "") ⟨(), []⟩
      (rfl : nanStorage.listAll () = (.ok (.mk [nanProduct]), ()))]
    have hp : productJson nanProduct = none := productJson_not_finite nanProduct (by decide)
    simp [Marshal, marshalAll, hp]

/-- The encoding of a slice lists the encodings of its elements in order. -/
theorem marshalAll_eq_some (ps : List product) (js : List Json) :
    marshalAll ps = some js ↔ List.Forall₂ (fun p j => productJson p = some j) ps js := by
  induction ps generalizing js with
  | nil =>
    constructor
    · intro h
      simp only [marshalAll, Option.some.injEq] at h
      subst h
      exact List.Forall₂.nil
    · intro h
      cases h
      rfl
  | cons p ps ih =>
    constructor
    · intro h
      simp only [marshalAll] at h
      split at h
      · rename_i j js1 hj hjs
        simp only [Option.some.injEq] at h
        subst h
        exact List.Forall₂.cons hj ((ih js1).1 hjs)
      · cases h
    · intro h
      cases h with
      | cons hj hrest =>
        simp [marshalAll, hj, (ih _).2 hrest]

/-- When every price is finite, the slice encodes as the list of the product
objects, in order. -/
theorem marshalAll_finite (ps : List product) (h : ∀ p ∈ ps, p.Price.isFinite = true) :
    marshalAll ps = some (ps.map productObject) := by
  induction ps with
  | nil => rfl
  | cons p ps ih =>
    have hp : productJson p = some (productObject p) := by
      simp [productJson, h p (List.mem_cons_self _ _)]
    simp [marshalAll, hp, ih (fun q hq => h q (List.mem_cons_of_mem _ hq))]

/-- When some price is NaN or an infinity, encoding the slice fails. -/
theorem marshalAll_not_finite (ps : List product)
    (h : ∃ p ∈ ps, p.Price.isFinite = false) : marshalAll ps = none := by
  induction ps with
  | nil =>
    obtain ⟨p, hp, _⟩ := h
    cases hp
  | cons q ps ih =>
    obtain ⟨p, hp, hfin⟩ := h
    rcases List.mem_cons.1 hp with rfl | hmem
    · simp [marshalAll, productJson_not_finite p hfin]
    · have := ih ⟨p, hmem, hfin⟩
      simp only [marshalAll, this]
      split <;> simp_all

/-- C7 amended: when storage returns a non-nil sequence whose prices are all
finite, getProducts answers 200 with the JSON array of the encodings of the
products in the order storage returned them (the array [] for the empty
sequence); when storage returns a non-nil sequence holding a product whose
price is NaN or an infinity the answer is 200 with an empty body; when storage
returns the nil sequence the answer is 200 with the JSON value null; when
storage fails with error e the answer is 500 {"error": e.Error()}. -/
theorem C7_getProducts {DB : Type} (S : Storage DB) (r : Request) (w : World DB) :
    (∀ ps db1, S.listAll w.db = (.ok (.mk ps), db1) →
      (App.getProducts S r w).1.statusCode = 200 ∧
      ((∀ p ∈ ps, p.Price.isFinite = true) →
        (App.getProducts S r w).1.body = some (.arr (ps.map productObject))) ∧
      (ps = [] → (App.getProducts S r w).1.body = some (.arr [])) ∧
      ((∃ p ∈ ps, p.Price.isFinite = false) → (App.getProducts S r w).1.body = none)) ∧
    (∀ db1, S.listAll w.db = (.ok .nil, db1) →
      (App.getProducts S r w).1.statusCode = 200 ∧
      (App.getProducts S r w).1.body = some .null) ∧
    (∀ e db1, S.listAll w.db = (.error e, db1) →
      (App.getProducts S r w).1.statusCode = 500 ∧
      (App.getProducts S r w).1.body = some (.obj [("error", .str e.Error)])) := by
  refine ⟨fun ps db1 hs => ?_, fun db1 hs => ?_, fun e db1 hs => ?_⟩
  · rw [getProducts_ok S r w hs]
    refine ⟨by simp [StatusOK], fun hfin => ?_, fun hps => ?_, fun hnan => ?_⟩
    · simp [Marshal, marshalAll_finite ps hfin]
    · subst hps; simp [Marshal, marshalAll]
    · simp [Marshal, marshalAll_not_finite ps hnan]
  · rw [getProducts_ok S r w hs]; simp [StatusOK, Marshal]
  · rw [getProducts_error S r w hs]; simp [StatusInternalServerError]

/-- Witness of C7 amended: GET /products is answered 200 with the one-element
array holding the Widget when the table holds it, 200 with [] on the empty
table, and 500 with the storage error's message when the connection is
down. -/
theorem C7_getProducts_witness :
    ((App.getProducts memStorage (requestWith "GET" "/products" "" "")
        widgetWorld).1.statusCode = 200 ∧
      (App.getProducts memStorage (requestWith "GET" "/products" "" "") widgetWorld).1.body
        = some (.arr [.obj [("id", .int 1), ("name", .str "Widget"), ("quantity", .int 5),
                            ("price", .float ⟨4621813488089437307⟩)]])) ∧
    (App.getProducts memStorage (requestWith "GET" "/products" "" "") emptyWorld).1.body
      = some (.arr []) ∧
    ((App.getProducts memStorage (requestWith "GET" "/products" "" "")
        downWorld).1.statusCode = 500 ∧
      (App.getProducts memStorage (requestWith "GET" "/products" "" "") downWorld).1.body
        = some (.obj [("error", .str "connection refused")])) :=
  have ok := (C7_getProducts memStorage (requestWith "GET" "/products" "" "") widgetWorld).1
    [{ widget with ID := 1 }] widgetWorld.db rfl
  ⟨⟨ok.1, ok.2.1 (by decide)⟩,
   ((C7_getProducts memStorage (requestWith "GET" "/products" "" "") emptyWorld).1
     [] emptyWorld.db rfl).2.2.1 rfl,
   (C7_getProducts memStorage (requestWith "GET" "/products" "" "") downWorld).2.2
     (.other "connection refused") downWorld.db rfl⟩

/-! ## Shape of every response, and the storage calls behind it -/

theorem isErrorBody_errorObject (msg : String) :
    isErrorBody (some (.obj [("error", .str msg)])) := by
  simp [isErrorBody]

theorem not_isErrorBody_product (p : product) : ¬ isErrorBody (Marshal (.product p)) := by
  simp only [Marshal, productJson, productObject]
  split <;> simp [isErrorBody]

theorem not_isErrorBody_products (ps : Slice product) :
    ¬ isErrorBody (Marshal (.products ps)) := by
  cases ps with
  | nil => simp [Marshal, isErrorBody]
  | mk xs =>
    simp only [Marshal]
    split <;> simp [isErrorBody]

theorem not_isErrorBody_result : ¬ isErrorBody (Marshal (.mapEntry "result" "success")) := by
  simp [Marshal, isErrorBody]

/-- Every run of a handler is of one of three kinds: a 400 error response with
the world untouched; a 404 or 500 error response after one storage call; a 200
or 201 response, whose payload is not an error object, after one storage
call. -/
theorem Handler.run_cases {DB : Type} (S : Storage DB) (h : Handler) (r : Request)
    (w : World DB) :
    (∃ msg, h.run S r w = (errorResponse 400 msg, w)) ∨
    (∃ c msg db1 call, (c = 404 ∨ c = 500) ∧
      h.run S r w = (errorResponse c msg, ⟨db1, w.calls ++ [call]⟩)) ∨
    (∃ c pl db1 call, (c = 200 ∨ c = 201) ∧ ¬ isErrorBody (Marshal pl) ∧
      h.run S r w = (sendResponse c pl, ⟨db1, w.calls ++ [call]⟩)) := by
  cases h with
  | getProducts =>
    rcases hs : S.listAll w.db with ⟨res, db1⟩
    cases res with
    | ok ps =>
      exact Or.inr (Or.inr ⟨200, _, _, _, Or.inl rfl, not_isErrorBody_products ps,
        getProducts_ok S r w hs⟩)
    | error e => exact Or.inr (Or.inl ⟨500, _, _, _, Or.inr rfl, getProducts_error S r w hs⟩)
  | addProduct =>
    rcases hb : Decode r.Body with _ | p
    · exact Or.inl ⟨_, addProduct_badBody S r w hb⟩
    · rcases hs : S.insert p w.db with ⟨res, db1⟩
      cases res with
      | ok id =>
        exact Or.inr (Or.inr ⟨201, _, _, _, Or.inr rfl, not_isErrorBody_product _,
          addProduct_ok S r w hb hs⟩)
      | error e =>
        exact Or.inr (Or.inl ⟨500, _, _, _, Or.inr rfl, addProduct_error S r w hb hs⟩)
  | updateProduct =>
    rcases h1 : Atoi (mapIndex r.Vars "id") with _ | key
    · exact Or.inl ⟨_, updateProduct_badID S r w h1⟩
    · rcases hb : Decode r.Body with _ | p
      · exact Or.inl ⟨_, updateProduct_badBody S r w h1 hb⟩
      · rcases hs : S.update key { p with ID := key } w.db with ⟨res, db1⟩
        cases res with
        | none =>
          exact Or.inr (Or.inr ⟨200, _, _, _, Or.inl rfl, not_isErrorBody_product _,
            updateProduct_ok S r w h1 hb hs⟩)
        | some e =>
          exact Or.inr (Or.inl ⟨500, _, _, _, Or.inr rfl, updateProduct_error S r w h1 hb hs⟩)
  | getProductByID =>
    rcases h1 : Atoi (mapIndex r.Vars "id") with _ | id
    · exact Or.inl ⟨_, getProductByID_badID S r w h1⟩
    · rcases hs : S.getByID id w.db with ⟨res, db1⟩
      cases res with
      | ok q =>
        exact Or.inr (Or.inr ⟨200, _, _, _, Or.inl rfl, not_isErrorBody_product q,
          getProductByID_ok S r w h1 hs⟩)
      | error e =>
        by_cases he : e = .ErrNoRows
        · subst he
          exact Or.inr (Or.inl ⟨404, _, _, _, Or.inl rfl, getProductByID_noRows S r w h1 hs⟩)
        · exact Or.inr (Or.inl ⟨500, _, _, _, Or.inr rfl,
            getProductByID_error S r w h1 he hs⟩)
  | deleteProductByID =>
    rcases h1 : Atoi (mapIndex r.Vars "id") with _ | key
    · exact Or.inl ⟨_, deleteProductByID_badID S r w h1⟩
    · rcases hs : S.deleteByID key w.db with ⟨res, db1⟩
      cases res with
      | none =>
        exact Or.inr (Or.inr ⟨200, _, _, _, Or.inl rfl, not_isErrorBody_result,
          deleteProductByID_ok S r w h1 hs⟩)
      | some e =>
        exact Or.inr (Or.inl ⟨500, _, _, _, Or.inr rfl, deleteProductByID_error S r w h1 hs⟩)

/-- C8: for each of the five handlers, every request and every storage, the
status is one of 200, 201, 400, 404, 500; the status is 4xx or 5xx exactly when
the body is the JSON object with the single key "error" mapped to a string;
and the response carries the header Content-Type: application/json. -/
theorem C8_response_shape {DB : Type} (S : Storage DB) (h : Handler) (r : Request)
    (w : World DB) :
    ((h.run S r w).1.statusCode = 200 ∨ (h.run S r w).1.statusCode = 201 ∨
      (h.run S r w).1.statusCode = 400 ∨ (h.run S r w).1.statusCode = 404 ∨
      (h.run S r w).1.statusCode = 500) ∧
    ((400 ≤ (h.run S r w).1.statusCode ∧ (h.run S r w).1.statusCode < 600)
      ↔ isErrorBody (h.run S r w).1.body) ∧
    (h.run S r w).1.header = [("Content-Type", "application/json")] := by
  rcases Handler.run_cases S h r w with ⟨msg, e⟩ | ⟨c, msg, db1, call, hc, e⟩ |
    ⟨c, pl, db1, call, hc, hpl, e⟩
  · rw [e]
    simp [isErrorBody_errorObject]
  · rw [e]
    rcases hc with rfl | rfl <;> simp [isErrorBody_errorObject]
  · rw [e]
    rcases hc with rfl | rfl <;> simp [hpl]

/-- C10: a handler invocation makes at most one storage accessor call: none
when it answers 400, and then the database and the call log are exactly as
before; exactly one in every other case. -/
theorem C10_storage_calls {DB : Type} (S : Storage DB) (h : Handler) (r : Request)
    (w : World DB) :
    ((h.run S r w).1.statusCode = 400 →
      (h.run S r w).2.calls = w.calls ∧ (h.run S r w).2.db = w.db) ∧
    ((h.run S r w).1.statusCode ≠ 400 →
      ∃ call, (h.run S r w).2.calls = w.calls ++ [call]) ∧
    (h.run S r w).2.calls.length ≤ w.calls.length + 1 := by
  rcases Handler.run_cases S h r w with ⟨msg, e⟩ | ⟨c, msg, db1, call, hc, e⟩ |
    ⟨c, pl, db1, call, hc, hpl, e⟩
  · rw [e]
    simp
  · rw [e]
    rcases hc with rfl | rfl <;> simp
  · rw [e]
    rcases hc with rfl | rfl <;> simp

/-! ## The dispatcher -/

theorem splitSlash_products : splitSlash "/products".toList = [[], "products".toList] := by
  decide

theorem splitSlash_product : splitSlash "/product".toList = [[], "product".toList] := by
  decide

theorem splitSlash_product_id :
    splitSlash "/product/{id}".toList = [[], "product".toList, "{id}".toList] := by
  decide

/-- A template that starts with a literal segment only matches paths that
start with that segment. -/
theorem matchSegs_literal_head (t s : List Char) (ts ss : List (List Char))
    (hv : varName t = none) (h : (matchSegs (t :: ts) (s :: ss)).isSome = true) : t = s := by
  by_contra hne
  simp [matchSegs, hv, hne] at h

/-- The first segment after the root of any path matched by a route whose
template starts with the literal segment `t`. -/
theorem matchPath_literal_head (tpl : String) (ms : List String) (hd : Handler)
    (t : List Char) (ts : List (List Char)) (path : String)
    (htpl : splitSlash tpl.toList = [] :: t :: ts) (hv : varName t = none)
    (h : (Route.matchPath ⟨tpl, ms, hd⟩ path).isSome = true) :
    ∃ ss, splitSlash path.toList = [] :: t :: ss := by
  unfold Route.matchPath at h
  generalize splitSlash path.toList = sp at h ⊢
  simp only [htpl] at h
  rcases sp with _ | ⟨s0, ss0⟩
  · simp at h
  · cases s0 with
    | cons c cs => simp at h
    | nil =>
      cases ss0 with
      | nil => simp [matchSegs] at h
      | cons s1 ss1 =>
        have := matchSegs_literal_head t s1 ts ss1 hv (by simpa using h)
        subst this
        exact ⟨ss1, rfl⟩

/-- No path is matched both by the template /products and by the template
/product/{id}. -/
theorem products_product_id_disjoint (ms1 ms2 : List String) (h1 h2 : Handler) (path : String)
    (ha : (Route.matchPath ⟨"/products", ms1, h1⟩ path).isSome = true)
    (hb : (Route.matchPath ⟨"/product/{id}", ms2, h2⟩ path).isSome = true) : False := by
  obtain ⟨ss, e1⟩ := matchPath_literal_head "/products" ms1 h1 "products".toList [] path
    splitSlash_products (by decide) ha
  obtain ⟨ss2, e2⟩ := matchPath_literal_head "/product/{id}" ms2 h2 "product".toList
    ["{id}".toList] path splitSlash_product_id (by decide) hb
  rw [e1] at e2
  simp at e2

/-- When no route of a list accepts the request, `matchRoutes` answers 405 if
some route matched the path (or one had before), and 404 otherwise. -/
theorem matchRoutes_of_none_accepts (r : Request) (routes : List Route) (mismatch : Bool)
    (h : ∀ rt ∈ routes, rt.accepts r.Method r.Path = false) :
    matchRoutes r mismatch routes
      = if mismatch || routes.any (fun rt => (rt.matchPath r.Path).isSome)
        then .methodNotAllowed else .notFound := by
  induction routes generalizing mismatch with
  | nil => cases mismatch <;> simp [matchRoutes]
  | cons rt rest ih =>
    have hrest : ∀ rt1 ∈ rest, rt1.accepts r.Method r.Path = false :=
      fun rt1 h1 => h rt1 (List.mem_cons_of_mem _ h1)
    have hrt := h rt (List.mem_cons_self _ _)
    unfold matchRoutes
    rcases hm : rt.matchPath r.Path with _ | ⟨vars, slash⟩
    · simp [ih mismatch hrest, hm]
    · have hmeth : r.Method ∉ rt.methods := by
        simpa [Route.accepts, hm] using hrt
      simp [hmeth, ih true hrest, hm]

/-- C9 as stated fails: POST /products matches none of the five routes, and the
router answers 405 Method Not Allowed, not a 404. -/
theorem C9_counterexample_post_products_is_405 :
    App.handleRoutes.all (fun rt => !rt.accepts "POST" "/products") = true ∧
    ServeHTTP (requestWith "POST" "/products" "" "") = .methodNotAllowed ∧
    (ServeHTTP (requestWith "POST" "/products" "" "")).status = some 405 := by
  decide

/-- C9 amended: the dispatcher binds exactly the five (method, path-pattern)
pairs of `handleRoutes`; every request is accepted by at most one of them; and
a request accepted by none of them never reaches a handler: it is redirected
(301) when its path is not in canonical form, answered 405 Method Not Allowed
when its path matches a registered pattern but its method is not registered for
that path, and answered 404 when its path matches no registered pattern. -/
theorem C9_dispatch (r : Request) :
    App.handleRoutes.map (fun rt => (rt.methods, rt.template, rt.handler))
      = [(["GET"], "/products", Handler.getProducts),
         (["POST"], "/product", Handler.addProduct),
         (["PUT"], "/product/{id}", Handler.updateProduct),
         (["GET"], "/product/{id}", Handler.getProductByID),
         (["DELETE"], "/product/{id}", Handler.deleteProductByID)] ∧
    (∀ rt1 ∈ App.handleRoutes, ∀ rt2 ∈ App.handleRoutes,
      rt1.accepts r.Method r.Path = true → rt2.accepts r.Method r.Path = true → rt1 = rt2) ∧
    ((∀ rt ∈ App.handleRoutes, rt.accepts r.Method r.Path = false) →
      (∀ h vars, ServeHTTP r ≠ .invoke h vars) ∧
      (cleanPath r.Path ≠ r.Path → ServeHTTP r = .redirect (cleanPath r.Path)) ∧
      (cleanPath r.Path = r.Path →
        (∃ rt ∈ App.handleRoutes, (rt.matchPath r.Path).isSome = true) →
        ServeHTTP r = .methodNotAllowed ∧ (ServeHTTP r).status = some 405) ∧
      (cleanPath r.Path = r.Path →
        (∀ rt ∈ App.handleRoutes, rt.matchPath r.Path = none) →
        ServeHTTP r = .notFound ∧ (ServeHTTP r).status = some 404)) := by
  refine ⟨rfl, ?_, fun hnone => ?_⟩
  · intro rt1 h1 rt2 h2 a1 a2
    simp only [App.handleRoutes, List.mem_cons, List.mem_singleton, List.not_mem_nil,
      or_false] at h1 h2
    simp only [Route.accepts, Bool.and_eq_true, decide_eq_true_eq] at a1 a2
    rcases h1 with rfl | rfl | rfl | rfl | rfl <;> rcases h2 with rfl | rfl | rfl | rfl | rfl <;>
      first
        | rfl
        | (exfalso
           have m1 := a1.2
           have m2 := a2.2
           simp only [List.mem_singleton] at m1 m2
           rw [m1] at m2
           exact absurd m2 (by decide))
        | exact (products_product_id_disjoint _ _ _ _ r.Path a1.1 a2.1).elim
        | exact (products_product_id_disjoint _ _ _ _ r.Path a2.1 a1.1).elim
  · have key := matchRoutes_of_none_accepts r App.handleRoutes false hnone
    refine ⟨fun h vars => ?_, fun hc => ?_, fun hc hex => ?_, fun hc hall => ?_⟩
    · unfold ServeHTTP
      split
      · simp
      · rw [key]; split <;> simp
    · simp [ServeHTTP, hc]
    · obtain ⟨rt, hrt, hm⟩ := hex
      have hany : App.handleRoutes.any (fun rt => (rt.matchPath r.Path).isSome) = true :=
        List.any_eq_true.2 ⟨rt, hrt, hm⟩
      have e : ServeHTTP r = .methodNotAllowed := by
        simp only [ServeHTTP, hc, ne_eq, not_true_eq_false, if_false, key, hany,
          Bool.false_or, if_true]
      rw [e]
      exact ⟨rfl, rfl⟩
    · have hany : App.handleRoutes.any (fun rt => (rt.matchPath r.Path).isSome) = false := by
        rw [List.any_eq_false]
        intro rt hrt
        simp [hall rt hrt]
      have e : ServeHTTP r = .notFound := by
        simp [ServeHTTP, hc, key, hany]
      rw [e]
      exact ⟨rfl, rfl⟩

/-! ## The decoder's fuel is adequate -/

theorem skipSpace_length_le (cs : List Char) : (skipSpace cs).length ≤ cs.length := by
  induction cs with
  | nil => simp [skipSpace]
  | cons c cs ih =>
    unfold skipSpace
    split
    · exact Nat.le_succ_of_le ih
    · exact Nat.le_refl _

theorem digits_length_le (cs : List Char) : (digits cs).2.length ≤ cs.length := by
  induction cs with
  | nil => simp [digits]
  | cons c cs ih =>
    unfold digits
    split
    · exact Nat.le_succ_of_le ih
    · exact Nat.le_refl _

theorem digits_eq_length_le {cs ds r : List Char} (h : digits cs = (ds, r)) :
    r.length ≤ cs.length := by
  have := digits_length_le cs
  rw [h] at this
  exact this

theorem scanInt_length_lt {cs i r : List Char} (h : scanInt cs = some (i, r)) :
    r.length < cs.length := by
  cases cs with
  | nil => simp [scanInt] at h
  | cons c cs =>
    rcases hd : digits cs with ⟨ds, r1⟩
    have hl := digits_eq_length_le hd
    simp only [scanInt, hd] at h
    split at h
    · simp only [Option.some.injEq, Prod.mk.injEq] at h
      rw [← h.2]; exact Nat.lt_succ_self _
    · split at h
      · simp only [Option.some.injEq, Prod.mk.injEq] at h
        rw [← h.2]
        exact Nat.lt_succ_of_le hl
      · cases h

theorem scanFrac_length_le {cs f r : List Char} (h : scanFrac cs = some (f, r)) :
    r.length ≤ cs.length := by
  unfold scanFrac at h
  split at h
  · rename_i r0
    rcases hd : digits r0 with ⟨ds, r1⟩
    have hl := digits_eq_length_le hd
    rw [hd] at h
    split at h
    · cases h
    · rename_i ds1 r2 _ heq
      simp only [Prod.mk.injEq] at heq
      simp only [Option.some.injEq, Prod.mk.injEq] at h
      rw [← h.2, ← heq.2]
      exact Nat.le_succ_of_le hl
  · simp only [Option.some.injEq, Prod.mk.injEq] at h
    rw [← h.2]

theorem scanExpDigits_length_le {r1 e r : List Char} {en b : Bool}
    (h : (match digits r1 with
          | ([], _) => none
          | (ds, r2) => some (b, ds, r2)) = some (en, e, r)) : r.length ≤ r1.length := by
  rcases hd : digits r1 with ⟨ds, r2⟩
  have hl := digits_eq_length_le hd
  rw [hd] at h
  split at h
  · cases h
  · rename_i ds1 r3 _ heq
    simp only [Prod.mk.injEq] at heq
    simp only [Option.some.injEq, Prod.mk.injEq] at h
    rw [← h.2.2, ← heq.2]
    exact hl

theorem scanExp_length_le {cs e r : List Char} {en : Bool} (h : scanExp cs = some (en, e, r)) :
    r.length ≤ cs.length := by
  cases cs with
  | nil =>
    simp only [scanExp, Option.some.injEq, Prod.mk.injEq] at h
    rw [← h.2.2]
  | cons c cs =>
    simp only [scanExp] at h
    split at h
    · split at h
      · have := scanExpDigits_length_le h
        simp only [List.length_cons]
        omega
      · have := scanExpDigits_length_le h
        simp only [List.length_cons]
        omega
      · have := scanExpDigits_length_le h
        simp only [List.length_cons]
        omega
    · simp only [Option.some.injEq, Prod.mk.injEq] at h
      rw [← h.2.2]

theorem scanUnsigned_length_lt {neg : Bool} {cs r : List Char} {l : NumLit}
    (h : scanUnsigned neg cs = some (l, r)) : r.length < cs.length := by
  unfold scanUnsigned at h
  split at h
  · cases h
  · rename_i i r1 hi
    split at h
    · cases h
    · rename_i f r2 hf
      split at h
      · cases h
      · rename_i en e r3 he
        simp only [Option.some.injEq, Prod.mk.injEq] at h
        have a := scanInt_length_lt hi
        have b := scanFrac_length_le hf
        have c := scanExp_length_le he
        rw [← h.2]
        omega

theorem scanNumber_length_lt {cs r : List Char} {l : NumLit}
    (h : scanNumber cs = some (l, r)) : r.length < cs.length := by
  unfold scanNumber at h
  split at h
  · have := scanUnsigned_length_lt h
    simp only [List.length_cons]
    omega
  · exact scanUnsigned_length_lt h

theorem scanString_length_lt (n : Nat) :
    ∀ cs ts r, cs.length ≤ n → scanString cs = some (ts, r) → r.length < cs.length := by
  induction n with
  | zero =>
    intro cs ts r hn h
    cases cs with
    | nil => simp [scanString] at h
    | cons c cs => simp at hn
  | succ n ih =>
    intro cs ts r hn h
    unfold scanString at h
    split at h
    · cases h
    · simp only [Option.some.injEq, Prod.mk.injEq] at h
      rw [← h.2]; exact Nat.lt_succ_self _
    · rename_i a b c d r0
      split at h
      · rename_i k ts1 r1 _ hs
        simp only [Option.some.injEq, Prod.mk.injEq] at h
        have := ih r0 ts1 r1 (by simp only [List.length_cons] at hn; omega) hs
        rw [← h.2]
        simp only [List.length_cons]
        omega
      · cases h
    · rename_i e r0 _
      split at h
      · rename_i k ts1 r1 _ hs
        simp only [Option.some.injEq, Prod.mk.injEq] at h
        have := ih r0 ts1 r1 (by simp only [List.length_cons] at hn; omega) hs
        rw [← h.2]
        simp only [List.length_cons]
        omega
      · cases h
    · cases h
    · rename_i c r0 _ _ _ _
      rcases hs : scanString r0 with _ | ⟨ts1, r1⟩
      · simp [hs] at h
      · have := ih r0 ts1 r1 (by simp only [List.length_cons] at hn; omega) hs
        simp only [hs] at h
        split at h
        · cases h
        · simp only [Option.some.injEq, Prod.mk.injEq] at h
          rw [← h.2]
          simp only [List.length_cons]
          omega

theorem literal_length_le (w : List Char) :
    ∀ cs r, literal w cs = some r → r.length ≤ cs.length := by
  induction w with
  | nil =>
    intro cs r h
    simp only [literal, Option.some.injEq] at h
    rw [h]
  | cons a w ih =>
    intro cs r h
    cases cs with
    | nil => simp [literal] at h
    | cons c cs =>
      simp only [literal] at h
      split at h
      · exact Nat.le_succ_of_le (ih cs r h)
      · cases h

theorem parseValue_step (f : Nat)
    (ihM : ∀ d cs kvs rest, parseMembers f d cs = some (kvs, rest) →
      rest.length < cs.length ∧
      ∀ g, cs.length - rest.length ≤ g → parseMembers g d cs = some (kvs, rest))
    (ihE : ∀ d cs xs rest, parseElements f d cs = some (xs, rest) →
      rest.length < cs.length ∧
      ∀ g, cs.length - rest.length ≤ g → parseElements g d cs = some (xs, rest))
    (d : Nat) (cs : List Char) (v : Value) (rest : List Char)
    (h : parseValue (f + 1) d cs = some (v, rest)) (g : Nat) :
    rest.length < cs.length ∧
    (cs.length - rest.length ≤ g + 1 → parseValue (g + 1) d cs = some (v, rest)) := by
  have hsl := skipSpace_length_le cs
  rw [parseValue] at h
  rw [parseValue]
  generalize skipSpace cs = s at h hsl ⊢
  cases s with
  | nil => cases h
  | cons c r =>
    simp only [List.length_cons] at hsl
    dsimp only at h ⊢
    by_cases c1 : c = '\x7b'
    · rw [if_pos c1] at h ⊢
      by_cases hdepth : d + 1 > maxNestingDepth
      · rw [if_pos hdepth] at h; cases h
      · rw [if_neg hdepth] at h ⊢
        have hsl2 := skipSpace_length_le r
        generalize skipSpace r = s2 at h hsl2 ⊢
        split at h
        · rename_i r1
          simp only [Option.some.injEq, Prod.mk.injEq] at h
          obtain ⟨rfl, rfl⟩ := h
          simp only [List.length_cons] at hsl2
          exact ⟨by omega, fun _ => rfl⟩
        · rcases hm : parseMembers f (d + 1) s2 with _ | ⟨kvs, r2⟩
          · simp [hm] at h
          · simp only [hm, Option.some.injEq, Prod.mk.injEq] at h
            obtain ⟨rfl, rfl⟩ := h
            obtain ⟨hlt, hg⟩ := ihM (d + 1) s2 kvs r2 hm
            refine ⟨by omega, fun hle => ?_⟩
            rw [hg g (by omega)]
    · rw [if_neg c1] at h ⊢
      by_cases c2 : c = '['
      · rw [if_pos c2] at h ⊢
        by_cases hdepth : d + 1 > maxNestingDepth
        · rw [if_pos hdepth] at h; cases h
        · rw [if_neg hdepth] at h ⊢
          have hsl2 := skipSpace_length_le r
          generalize skipSpace r = s2 at h hsl2 ⊢
          split at h
          · rename_i r1
            simp only [Option.some.injEq, Prod.mk.injEq] at h
            obtain ⟨rfl, rfl⟩ := h
            simp only [List.length_cons] at hsl2
            exact ⟨by omega, fun _ => rfl⟩
          · rcases hm : parseElements f (d + 1) s2 with _ | ⟨xs, r2⟩
            · simp [hm] at h
            · simp only [hm, Option.some.injEq, Prod.mk.injEq] at h
              obtain ⟨rfl, rfl⟩ := h
              obtain ⟨hlt, hg⟩ := ihE (d + 1) s2 xs r2 hm
              refine ⟨by omega, fun hle => ?_⟩
              rw [hg g (by omega)]
      · rw [if_neg c2] at h ⊢
        by_cases c3 : c = '"'
        · rw [if_pos c3] at h ⊢
          rcases hs : scanString r with _ | ⟨ts, r1⟩
          · simp [hs] at h
          · simp only [hs, Option.some.injEq, Prod.mk.injEq] at h
            obtain ⟨rfl, rfl⟩ := h
            have := scanString_length_lt r.length r ts r1 (Nat.le_refl _) hs
            exact ⟨by omega, fun _ => rfl⟩
        · rw [if_neg c3] at h ⊢
          by_cases c4 : c = 't'
          · rw [if_pos c4] at h ⊢
            rcases hs : literal ['r', 'u', 'e'] r with _ | r1
            · simp [hs] at h
            · simp only [hs, Option.some.injEq, Prod.mk.injEq] at h
              obtain ⟨rfl, rfl⟩ := h
              have := literal_length_le _ r r1 hs
              exact ⟨by omega, fun _ => rfl⟩
          · rw [if_neg c4] at h ⊢
            by_cases c5 : c = 'f'
            · rw [if_pos c5] at h ⊢
              rcases hs : literal ['a', 'l', 's', 'e'] r with _ | r1
              · simp [hs] at h
              · simp only [hs, Option.some.injEq, Prod.mk.injEq] at h
                obtain ⟨rfl, rfl⟩ := h
                have := literal_length_le _ r r1 hs
                exact ⟨by omega, fun _ => rfl⟩
            · rw [if_neg c5] at h ⊢
              by_cases c6 : c = 'n'
              · rw [if_pos c6] at h ⊢
                rcases hs : literal ['u', 'l', 'l'] r with _ | r1
                · simp [hs] at h
                · simp only [hs, Option.some.injEq, Prod.mk.injEq] at h
                  obtain ⟨rfl, rfl⟩ := h
                  have := literal_length_le _ r r1 hs
                  exact ⟨by omega, fun _ => rfl⟩
              · rw [if_neg c6] at h ⊢
                rcases hs : scanNumber (c :: r) with _ | ⟨lit, r1⟩
                · simp [hs] at h
                · simp only [hs, Option.some.injEq, Prod.mk.injEq] at h
                  obtain ⟨rfl, rfl⟩ := h
                  have := scanNumber_length_lt hs
                  simp only [List.length_cons] at this
                  exact ⟨by omega, fun _ => rfl⟩

theorem parseMembers_step (f : Nat)
    (ihV : ∀ d cs v rest, parseValue f d cs = some (v, rest) →
      rest.length < cs.length ∧
      ∀ g, cs.length - rest.length ≤ g → parseValue g d cs = some (v, rest))
    (ihM : ∀ d cs kvs rest, parseMembers f d cs = some (kvs, rest) →
      rest.length < cs.length ∧
      ∀ g, cs.length - rest.length ≤ g → parseMembers g d cs = some (kvs, rest))
    (d : Nat) (cs : List Char) (kvs : List (List Char × Value)) (rest : List Char)
    (h : parseMembers (f + 1) d cs = some (kvs, rest)) (g : Nat) :
    rest.length < cs.length ∧
    (cs.length - rest.length ≤ g + 1 → parseMembers (g + 1) d cs = some (kvs, rest)) := by
  have hsl := skipSpace_length_le cs
  rw [parseMembers] at h
  rw [parseMembers]
  generalize skipSpace cs = s at h hsl ⊢
  split at h
  · rename_i r
    simp only [List.length_cons] at hsl
    rcases hs : scanString r with _ | ⟨ts, r1⟩
    · simp [hs] at h
    · have hl1 := scanString_length_lt r.length r ts r1 (Nat.le_refl _) hs
      have hsl1 := skipSpace_length_le r1
      simp only [hs] at h ⊢
      generalize skipSpace r1 = s1 at h hsl1 ⊢
      split at h
      · rename_i r2
        simp only [List.length_cons] at hsl1
        rcases hv : parseValue f d r2 with _ | ⟨v, r3⟩
        · simp [hv] at h
        · obtain ⟨hlt, hg⟩ := ihV d r2 v r3 hv
          have hsl3 := skipSpace_length_le r3
          simp only [hv] at h
          generalize hs3 : skipSpace r3 = s3 at h hsl3
          split at h
          · rename_i r4
            simp only [List.length_cons] at hsl3
            rcases hm : parseMembers f d r4 with _ | ⟨kvs1, r5⟩
            · simp [hm] at h
            · simp only [hm, Option.some.injEq, Prod.mk.injEq] at h
              obtain ⟨rfl, rfl⟩ := h
              obtain ⟨hlt2, hg2⟩ := ihM d r4 kvs1 r5 hm
              refine ⟨by omega, fun hle => ?_⟩
              rw [hg g (by omega)]
              simp only [hs3]
              rw [hg2 g (by omega)]
          · rename_i r4
            simp only [List.length_cons] at hsl3
            simp only [Option.some.injEq, Prod.mk.injEq] at h
            obtain ⟨rfl, rfl⟩ := h
            refine ⟨by omega, fun hle => ?_⟩
            rw [hg g (by omega)]
            simp only [hs3]
          · cases h
      · cases h
  · cases h

theorem parseElements_step (f : Nat)
    (ihV : ∀ d cs v rest, parseValue f d cs = some (v, rest) →
      rest.length < cs.length ∧
      ∀ g, cs.length - rest.length ≤ g → parseValue g d cs = some (v, rest))
    (ihE : ∀ d cs xs rest, parseElements f d cs = some (xs, rest) →
      rest.length < cs.length ∧
      ∀ g, cs.length - rest.length ≤ g → parseElements g d cs = some (xs, rest))
    (d : Nat) (cs : List Char) (xs : List Value) (rest : List Char)
    (h : parseElements (f + 1) d cs = some (xs, rest)) (g : Nat) :
    rest.length < cs.length ∧
    (cs.length - rest.length ≤ g + 1 → parseElements (g + 1) d cs = some (xs, rest)) := by
  rw [parseElements] at h
  rw [parseElements]
  rcases hv : parseValue f d cs with _ | ⟨v, r1⟩
  · simp [hv] at h
  · obtain ⟨hlt, hg⟩ := ihV d cs v r1 hv
    have hsl1 := skipSpace_length_le r1
    simp only [hv] at h
    generalize hs1 : skipSpace r1 = s1 at h hsl1
    split at h
    · rename_i r2
      simp only [List.length_cons] at hsl1
      rcases hm : parseElements f d r2 with _ | ⟨vs, r3⟩
      · simp [hm] at h
      · simp only [hm, Option.some.injEq, Prod.mk.injEq] at h
        obtain ⟨rfl, rfl⟩ := h
        obtain ⟨hlt2, hg2⟩ := ihE d r2 vs r3 hm
        refine ⟨by omega, fun hle => ?_⟩
        rw [hg g (by omega)]
        simp only [hs1]
        rw [hg2 g (by omega)]
    · rename_i r2
      simp only [List.length_cons] at hsl1
      simp only [Option.some.injEq, Prod.mk.injEq] at h
      obtain ⟨rfl, rfl⟩ := h
      refine ⟨by omega, fun hle => ?_⟩
      rw [hg g (by omega)]
      simp only [hs1]
    · cases h

/-- A successful parse consumes at least one character and is independent of
the fuel: every fuel at least the number of characters consumed gives the same
result. -/
theorem parse_fuel_independent (f : Nat) :
    (∀ d cs v rest, parseValue f d cs = some (v, rest) →
      rest.length < cs.length ∧
      ∀ g, cs.length - rest.length ≤ g → parseValue g d cs = some (v, rest)) ∧
    (∀ d cs kvs rest, parseMembers f d cs = some (kvs, rest) →
      rest.length < cs.length ∧
      ∀ g, cs.length - rest.length ≤ g → parseMembers g d cs = some (kvs, rest)) ∧
    (∀ d cs xs rest, parseElements f d cs = some (xs, rest) →
      rest.length < cs.length ∧
      ∀ g, cs.length - rest.length ≤ g → parseElements g d cs = some (xs, rest)) := by
  induction f with
  | zero =>
    refine ⟨fun d cs v rest h => ?_, fun d cs kvs rest h => ?_, fun d cs xs rest h => ?_⟩
    · simp [parseValue] at h
    · simp [parseMembers] at h
    · simp [parseElements] at h
  | succ f ih =>
    obtain ⟨ihV, ihM, ihE⟩ := ih
    refine ⟨fun d cs v rest h => ?_, fun d cs kvs rest h => ?_, fun d cs xs rest h => ?_⟩
    · have hlt := (parseValue_step f ihM ihE d cs v rest h 0).1
      refine ⟨hlt, fun g hg => ?_⟩
      obtain ⟨g1, rfl⟩ : ∃ g1, g = g1 + 1 := ⟨g - 1, by omega⟩
      exact (parseValue_step f ihM ihE d cs v rest h g1).2 hg
    · have hlt := (parseMembers_step f ihV ihM d cs kvs rest h 0).1
      refine ⟨hlt, fun g hg => ?_⟩
      obtain ⟨g1, rfl⟩ : ∃ g1, g = g1 + 1 := ⟨g - 1, by omega⟩
      exact (parseMembers_step f ihV ihM d cs kvs rest h g1).2 hg
    · have hlt := (parseElements_step f ihV ihE d cs xs rest h 0).1
      refine ⟨hlt, fun g hg => ?_⟩
      obtain ⟨g1, rfl⟩ : ∃ g1, g = g1 + 1 := ⟨g - 1, by omega⟩
      exact (parseElements_step f ihV ihE d cs xs rest h g1).2 hg

/-- The fuel `Decode` gives the parser is enough: whenever some amount of fuel
lets the parser read a first value from the body, `Decode` reads that value. -/
theorem Decode_fuel_adequate (body : String) (f : Nat) (v : Value) (rest : List Char)
    (h : parseValue f 0 body.toList = some (v, rest)) :
    Decode body = unmarshal product.zero v := by
  have hlen : body.toList.length = body.length := rfl
  have key := ((parse_fuel_independent f).1 0 body.toList v rest h).2 (body.length + 1)
    (by omega)
  unfold Decode
  rw [key]

/-- `Decode` fails exactly when no amount of fuel lets the parser read a first
value that decodes into a product: the fuel is not what makes it fail. -/
theorem Decode_eq_none_iff (body : String) :
    Decode body = none ↔
      ∀ f v rest, parseValue f 0 body.toList = some (v, rest) →
        unmarshal product.zero v = none := by
  constructor
  · intro h f v rest hp
    rw [← Decode_fuel_adequate body f v rest hp]
    exact h
  · intro h
    unfold Decode
    rcases hp : parseValue (body.length + 1) 0 body.toList with _ | ⟨v, rest⟩
    · rfl
    · exact h _ v rest hp

/-! ## Decoded prices are finite -/

theorem roundFloat_lt {num den bits : Nat} (h : roundFloat num den = some bits) :
    bits < 2047 * 2 ^ 52 := by
  unfold roundFloat at h
  simp only [Option.ite_none_right_eq_some, Option.some.injEq] at h
  obtain ⟨h1, h2⟩ := h
  rw [← h2]
  exact h1

theorem isFinite_of_lt (bits : Nat) (h : bits < 2047 * 2 ^ 52) :
    (float64.mk bits).isFinite = true ∧ (float64.mk (bits + 2 ^ 63)).isFinite = true := by
  simp only [float64.isFinite, bne_iff_ne, ne_eq]
  norm_num at h ⊢
  omega

/-- A number literal never converts to NaN or an infinity. -/
theorem NumLit.toFloat_finite (l : NumLit) (x : float64) (h : l.toFloat = some x) :
    x.isFinite = true := by
  unfold NumLit.toFloat at h
  simp only at h
  split at h
  · simp only [Option.some.injEq] at h
    rw [← h]
    split <;> decide
  · split at h
    · rename_i bits hr
      simp only [Option.some.injEq] at h
      rw [← h]
      have hlt : bits < 2047 * 2 ^ 52 := by
        split at hr <;> split at hr <;> exact roundFloat_lt hr
      split
      · exact (isFinite_of_lt bits hlt).2
      · exact (isFinite_of_lt bits hlt).1
    · cases h

theorem setField_finite (p q : product) (key : List Char) (v : Value)
    (hp : p.Price.isFinite = true) (h : setField p key v = some q) :
    q.Price.isFinite = true := by
  unfold setField at h
  simp only at h
  split at h
  · split at h
    · cases h; exact hp
    · split at h
      · cases h; exact hp
      · cases h
    · cases h
  · split at h
    · split at h
      · cases h; exact hp
      · cases h; exact hp
      · cases h
    · split at h
      · split at h
        · cases h; exact hp
        · split at h
          · cases h; exact hp
          · cases h
        · cases h
      · split at h
        · split at h
          · cases h; exact hp
          · split at h
            · rename_i x hx
              cases h
              exact NumLit.toFloat_finite _ x hx
            · cases h
          · cases h
        · cases h; exact hp

theorem setFields_finite (kvs : List (List Char × Value)) :
    ∀ p q : product, p.Price.isFinite = true → setFields p kvs = some q →
      q.Price.isFinite = true := by
  induction kvs with
  | nil =>
    intro p q hp h
    simp only [setFields, Option.some.injEq] at h
    rw [← h]; exact hp
  | cons kv kvs ih =>
    intro p q hp h
    obtain ⟨key, v⟩ := kv
    simp only [setFields] at h
    split at h
    · rename_i p1 h1
      exact ih p1 q (setField_finite p p1 key v hp h1) h
    · cases h

/-- Every product `Decode` yields has a finite price, so `json.Marshal` encodes
it: the products addProduct and updateProduct send back are never without an
encoding. -/
theorem Decode_price_finite (body : String) (p : product) (h : Decode body = some p) :
    p.Price.isFinite = true := by
  unfold Decode at h
  split at h
  · rename_i v rest _
    cases v with
    | null =>
      simp only [unmarshal, Option.some.injEq] at h
      rw [← h]; decide
    | object kvs =>
      simp only [unmarshal] at h
      exact setFields_finite kvs product.zero p (by decide) h
    | bool b => simp [unmarshal] at h
    | number lit => simp [unmarshal] at h
    | string s => simp [unmarshal] at h
    | array xs => simp [unmarshal] at h
  · cases h

end Inventory
